import Mathlib

/-!
Verification of the ffire plugin-description wire codec and its C boundary
layer.  The definitions below are a shallow embedding of the C++ sources:

* `src/dist/csharp/include/generated.hpp` — the entity model
  (`Parameter`, `Plugin`), the byte-level `Encoder` writers, the
  bounds-checked `Decoder` readers, and the message codec
  (`encode_plugin_message` / `decode_plugin_message`).
* `src/experimental/cpp-bindings/common/generated_c.cpp` — the
  handle-based boundary layer (`plugin_decode`, `plugin_encode`,
  accessors).
* `src/test-dist/cpp/src/generated_c.cpp` — the message-handle boundary
  layer (`message_decode`, `message_encode`).

Modelling conventions: a byte buffer is a memory function `Nat → Nat`
(every read reduces the cell modulo 256, reflecting the `uint8_t*` type
of the C++ data pointer) together with an explicit `size`; text values
are byte lists; 32-bit float fields are represented by their IEEE-754
bit patterns as natural numbers below 2^32 (the C++ codec only ever
moves the bit pattern via `memcpy`, so this captures its behaviour
exactly); signed integers are `Int` with explicit two's-complement
reduction modulo 2^32 / 2^64 where the C++ casts occur.  Fallible
decoding returns `Except String`, mirroring the C++
`std::runtime_error("insufficient data for decode")`.
-/

/-- Decidable equality for `Except`, so that concrete codec runs can be
checked by `decide`. -/
instance {ε α : Type} [DecidableEq ε] [DecidableEq α] : DecidableEq (Except ε α) :=
  fun x y =>
    match x, y with
    | .error a, .error b =>
      match decEq a b with
      | isTrue h => isTrue (by rw [h])
      | isFalse h => isFalse (fun hc => h (Except.error.inj hc))
    | .error _, .ok _ => isFalse (fun hc => Except.noConfusion hc)
    | .ok _, .error _ => isFalse (fun hc => Except.noConfusion hc)
    | .ok a, .ok b =>
      match decEq a b with
      | isTrue h => isTrue (by rw [h])
      | isFalse h => isFalse (fun hc => h (Except.ok.inj hc))

namespace test

/-- Entity model `Parameter` from generated.hpp.  `DefaultValue`,
`CurrentValue`, `MaxValue`, `MinValue` hold the IEEE-754 single-precision
bit patterns (the codec is bit-pattern exact).  `Type` being a Lean
keyword, the Plugin field is spelled `Type'` below. -/
structure Parameter where
  DisplayName : List Nat
  DefaultValue : Nat
  CurrentValue : Nat
  Address : Int
  MaxValue : Nat
  MinValue : Nat
  Unit : List Nat
  Identifier : List Nat
  CanRamp : Bool
  IsWritable : Bool
  RawFlags : Int
  IndexedValues : Option (List (List Nat))
  IndexedValuesSource : Option (List Nat)
deriving Repr, DecidableEq, Inhabited

/-- Entity model `Plugin` from generated.hpp. -/
structure Plugin where
  Name : List Nat
  ManufacturerID : List Nat
  Type' : List Nat
  Subtype : List Nat
  Parameters : List Parameter
deriving Repr, DecidableEq, Inhabited

/-! ### Encoder (generated.hpp, class Encoder) -/

/-- Two little-endian bytes of a count cast to `uint16_t`, as emitted by
`write_string` and the sequence-length blocks of `encode_plugin_message`:
`uint16_t len = static_cast<uint16_t>(n); push(uint8(len)); push(uint8(len>>8))`. -/
def count_bytes (n : Nat) : List Nat :=
  [n % 65536 % 256, n % 65536 / 256 % 256]

/-- `Encoder::write_bool`: one byte, 0x01 for true, 0x00 for false. -/
def write_bool (b : Bool) : List Nat :=
  [if b then 1 else 0]

/-- Little-endian bytes of a `uint32_t`. -/
def u32_bytes (u : Nat) : List Nat :=
  [u % 256, u / 2 ^ 8 % 256, u / 2 ^ 16 % 256, u / 2 ^ 24 % 256]

/-- Little-endian bytes of a `uint64_t`. -/
def u64_bytes (u : Nat) : List Nat :=
  [u % 256, u / 2 ^ 8 % 256, u / 2 ^ 16 % 256, u / 2 ^ 24 % 256,
   u / 2 ^ 32 % 256, u / 2 ^ 40 % 256, u / 2 ^ 48 % 256, u / 2 ^ 56 % 256]

/-- `Encoder::write_int32`: cast to `uint32_t` (two's complement), then
four little-endian bytes. -/
def write_int32 (v : Int) : List Nat :=
  u32_bytes (v % (2 ^ 32 : Int)).toNat

/-- `Encoder::write_int64`: cast to `uint64_t` (two's complement), then
eight little-endian bytes. -/
def write_int64 (v : Int) : List Nat :=
  u64_bytes (v % (2 ^ 64 : Int)).toNat

/-- `Encoder::write_float32`: `memcpy` the float's bit pattern into a
`uint32_t` and write its four little-endian bytes; `u` is the bit
pattern. -/
def write_float32 (u : Nat) : List Nat :=
  u32_bytes u

/-- `Encoder::write_string`: 2-byte little-endian length (the size cast
to `uint16_t`) followed by the raw bytes, no terminator. -/
def write_string (s : List Nat) : List Nat :=
  count_bytes s.length ++ s

/-! ### Decoder (generated.hpp, class Decoder)

Each reader takes the memory `data`, the buffer length `size` and the
cursor `pos`, and returns the decoded value together with the advanced
cursor, or the decode error.  `check_remaining(n)` is the guard
`pos + n ≤ size`. -/

/-- The single decode error message thrown by `Decoder::check_remaining`. -/
def insufficient : String := "insufficient data for decode"

/-- `Decoder::read_bool`: one byte; any non-zero byte is `true`. -/
def read_bool (data : Nat → Nat) (size pos : Nat) : Except String (Bool × Nat) :=
  if pos + 1 ≤ size then .ok (data pos % 256 != 0, pos + 1)
  else .error insufficient

/-- `Decoder::read_array_length`: two little-endian bytes forming a
`uint16_t` count. -/
def read_array_length (data : Nat → Nat) (size pos : Nat) : Except String (Nat × Nat) :=
  if pos + 2 ≤ size then
    .ok (data pos % 256 + data (pos + 1) % 256 * 256, pos + 2)
  else .error insufficient

/-- Sign interpretation of a `uint32_t` bit pattern as `int32_t`. -/
def toInt32 (u : Nat) : Int :=
  if u < 2 ^ 31 then (u : Int) else (u : Int) - 2 ^ 32

/-- Sign interpretation of a `uint64_t` bit pattern as `int64_t`. -/
def toInt64 (u : Nat) : Int :=
  if u < 2 ^ 63 then (u : Int) else (u : Int) - 2 ^ 64

/-- Cast an `int32_t` value back to its `uint32_t` bit pattern. -/
def toU32 (v : Int) : Nat := (v % (2 ^ 32 : Int)).toNat

/-- `Decoder::read_int32`: four little-endian bytes, two's complement. -/
def read_int32 (data : Nat → Nat) (size pos : Nat) : Except String (Int × Nat) :=
  if pos + 4 ≤ size then
    .ok (toInt32 (data pos % 256 + data (pos + 1) % 256 * 2 ^ 8 +
                  data (pos + 2) % 256 * 2 ^ 16 + data (pos + 3) % 256 * 2 ^ 24),
         pos + 4)
  else .error insufficient

/-- `Decoder::read_int64`: eight little-endian bytes, two's complement. -/
def read_int64 (data : Nat → Nat) (size pos : Nat) : Except String (Int × Nat) :=
  if pos + 8 ≤ size then
    .ok (toInt64 (data pos % 256 + data (pos + 1) % 256 * 2 ^ 8 +
                  data (pos + 2) % 256 * 2 ^ 16 + data (pos + 3) % 256 * 2 ^ 24 +
                  data (pos + 4) % 256 * 2 ^ 32 + data (pos + 5) % 256 * 2 ^ 40 +
                  data (pos + 6) % 256 * 2 ^ 48 + data (pos + 7) % 256 * 2 ^ 56),
         pos + 8)
  else .error insufficient

/-- `Decoder::read_float32`: `read_int32`, then `memcpy` the `uint32_t`
bit pattern into the float; the result is the bit pattern. -/
def read_float32 (data : Nat → Nat) (size pos : Nat) : Except String (Nat × Nat) :=
  match read_int32 data size pos with
  | .error e => .error e
  | .ok (v, p) => .ok (toU32 v, p)

/-- `Decoder::read_string`: 2-byte little-endian length, then that many
raw bytes, with `check_remaining` before each of the two reads. -/
def read_string (data : Nat → Nat) (size pos : Nat) : Except String (List Nat × Nat) :=
  if pos + 2 ≤ size then
    let len := data pos % 256 + data (pos + 1) % 256 * 256
    if pos + 2 + len ≤ size then
      .ok ((List.range len).map (fun i => data (pos + 2 + i) % 256), pos + 2 + len)
    else .error insufficient
  else .error insufficient

/-! ### Message encoder (generated.hpp, encode_plugin_message)

The nested loops of `encode_plugin_message` are split into one function
per nesting level; concatenating in order reproduces the byte stream of
the single C++ function exactly. -/

/-- Encoded `IndexedValues` element list. -/
def write_strings : List (List Nat) → List Nat
  | [] => []
  | s :: ss => write_string s ++ write_strings ss

/-- Optional `IndexedValues` block: presence byte, then count and
elements if present. -/
def write_opt_iv : Option (List (List Nat)) → List Nat
  | some l => 1 :: (count_bytes l.length ++ write_strings l)
  | none => [0]

/-- Optional `IndexedValuesSource` block: presence byte, then the string
if present. -/
def write_opt_src : Option (List Nat) → List Nat
  | some s => 1 :: write_string s
  | none => [0]

/-- Body of the inner `Parameters` loop of `encode_plugin_message`. -/
def encode_parameter (p : Parameter) : List Nat :=
  write_string p.DisplayName ++ (write_float32 p.DefaultValue ++
  (write_float32 p.CurrentValue ++ (write_int32 p.Address ++
  (write_float32 p.MaxValue ++ (write_float32 p.MinValue ++
  (write_string p.Unit ++ (write_string p.Identifier ++
  (write_bool p.CanRamp ++ (write_bool p.IsWritable ++
  (write_int64 p.RawFlags ++ (write_opt_iv p.IndexedValues ++
  write_opt_src p.IndexedValuesSource)))))))))))

/-- The `Parameters` loop of `encode_plugin_message`. -/
def encode_parameters : List Parameter → List Nat
  | [] => []
  | p :: ps => encode_parameter p ++ encode_parameters ps

/-- Body of the outer loop of `encode_plugin_message`. -/
def encode_plugin (pl : Plugin) : List Nat :=
  write_string pl.Name ++ (write_string pl.ManufacturerID ++
  (write_string pl.Type' ++ (write_string pl.Subtype ++
  (count_bytes pl.Parameters.length ++ encode_parameters pl.Parameters))))

/-- The outer loop of `encode_plugin_message`. -/
def encode_plugins : List Plugin → List Nat
  | [] => []
  | pl :: pls => encode_plugin pl ++ encode_plugins pls

/-- `encode_plugin_message`: 2-byte plugin count, then each plugin in
order. -/
def encode_plugin_message (msg : List Plugin) : List Nat :=
  count_bytes msg.length ++ encode_plugins msg

/-! ### Message decoder (generated.hpp, decode_plugin_message)

The nested loops are split the same way; the fuel argument of each loop
is the element count read from the stream, exactly as in the C++
`for (uint16_t i = 0; i < len; ++i)` loops. -/

/-- The `IndexedValues` element loop of `decode_plugin_message`. -/
def decode_strings (data : Nat → Nat) (size : Nat) :
    Nat → Nat → Except String (List (List Nat) × Nat)
  | 0, pos => .ok ([], pos)
  | n + 1, pos =>
    match read_string data size pos with
    | .error e => .error e
    | .ok (s, pos1) =>
      match decode_strings data size n pos1 with
      | .error e => .error e
      | .ok (ss, pos2) => .ok (s :: ss, pos2)

/-- The optional `IndexedValues` block of `decode_plugin_message`:
`if (dec.read_bool()) { read count; read elements }`. -/
def read_opt_iv (data : Nat → Nat) (size pos : Nat) :
    Except String (Option (List (List Nat)) × Nat) :=
  match read_bool data size pos with
  | .error e => .error e
  | .ok (flag, p) =>
    if flag then
      match read_array_length data size p with
      | .error e => .error e
      | .ok (cnt, q1) =>
        match decode_strings data size cnt q1 with
        | .error e => .error e
        | .ok (vals, q2) => .ok (some vals, q2)
    else .ok (none, p)

/-- The optional `IndexedValuesSource` block of `decode_plugin_message`:
`if (dec.read_bool()) { read string }`. -/
def read_opt_src (data : Nat → Nat) (size pos : Nat) :
    Except String (Option (List Nat) × Nat) :=
  match read_bool data size pos with
  | .error e => .error e
  | .ok (flag, p) =>
    if flag then
      match read_string data size p with
      | .error e => .error e
      | .ok (s, q) => .ok (some s, q)
    else .ok (none, p)

/-- Body of the inner `Parameters` loop of `decode_plugin_message`,
reading the thirteen `Parameter` fields in wire order. -/
def decode_parameter (data : Nat → Nat) (size pos : Nat) :
    Except String (Parameter × Nat) :=
  match read_string data size pos with
  | .error e => .error e
  | .ok (dn, p1) =>
  match read_float32 data size p1 with
  | .error e => .error e
  | .ok (dv, p2) =>
  match read_float32 data size p2 with
  | .error e => .error e
  | .ok (cv, p3) =>
  match read_int32 data size p3 with
  | .error e => .error e
  | .ok (addr, p4) =>
  match read_float32 data size p4 with
  | .error e => .error e
  | .ok (mx, p5) =>
  match read_float32 data size p5 with
  | .error e => .error e
  | .ok (mn, p6) =>
  match read_string data size p6 with
  | .error e => .error e
  | .ok (u, p7) =>
  match read_string data size p7 with
  | .error e => .error e
  | .ok (ident, p8) =>
  match read_bool data size p8 with
  | .error e => .error e
  | .ok (cr, p9) =>
  match read_bool data size p9 with
  | .error e => .error e
  | .ok (iw, p10) =>
  match read_int64 data size p10 with
  | .error e => .error e
  | .ok (rf, p11) =>
  match read_opt_iv data size p11 with
  | .error e => .error e
  | .ok (iv, p12) =>
  match read_opt_src data size p12 with
  | .error e => .error e
  | .ok (src, p13) =>
    .ok ({ DisplayName := dn, DefaultValue := dv, CurrentValue := cv,
           Address := addr, MaxValue := mx, MinValue := mn, Unit := u,
           Identifier := ident, CanRamp := cr, IsWritable := iw,
           RawFlags := rf, IndexedValues := iv,
           IndexedValuesSource := src }, p13)

/-- The `Parameters` loop of `decode_plugin_message`. -/
def decode_parameters (data : Nat → Nat) (size : Nat) :
    Nat → Nat → Except String (List Parameter × Nat)
  | 0, pos => .ok ([], pos)
  | n + 1, pos =>
    match decode_parameter data size pos with
    | .error e => .error e
    | .ok (p, pos1) =>
      match decode_parameters data size n pos1 with
      | .error e => .error e
      | .ok (ps, pos2) => .ok (p :: ps, pos2)

/-- Body of the outer loop of `decode_plugin_message`: the four plugin
strings, then the parameter count and parameters. -/
def decode_plugin (data : Nat → Nat) (size pos : Nat) :
    Except String (Plugin × Nat) :=
  match read_string data size pos with
  | .error e => .error e
  | .ok (nm, p1) =>
  match read_string data size p1 with
  | .error e => .error e
  | .ok (mid, p2) =>
  match read_string data size p2 with
  | .error e => .error e
  | .ok (ty, p3) =>
  match read_string data size p3 with
  | .error e => .error e
  | .ok (st, p4) =>
  match read_array_length data size p4 with
  | .error e => .error e
  | .ok (cnt, p5) =>
  match decode_parameters data size cnt p5 with
  | .error e => .error e
  | .ok (params, p6) =>
    .ok ({ Name := nm, ManufacturerID := mid, Type' := ty, Subtype := st,
           Parameters := params }, p6)

/-- The outer loop of `decode_plugin_message`. -/
def decode_plugins (data : Nat → Nat) (size : Nat) :
    Nat → Nat → Except String (List Plugin × Nat)
  | 0, pos => .ok ([], pos)
  | n + 1, pos =>
    match decode_plugin data size pos with
    | .error e => .error e
    | .ok (pl, pos1) =>
      match decode_plugins data size n pos1 with
      | .error e => .error e
      | .ok (pls, pos2) => .ok (pl :: pls, pos2)

/-- `decode_plugin_message(data, size)`: read the plugin count at cursor
0, then that many plugins; trailing bytes are ignored, as in the C++
function. -/
def decode_plugin_message (data : Nat → Nat) (size : Nat) :
    Except String (List Plugin) :=
  match read_array_length data size 0 with
  | .error e => .error e
  | .ok (len, pos) =>
    match decode_plugins data size len pos with
    | .error e => .error e
    | .ok (result, _) => .ok result

/-- Memory function of a concrete byte list (out-of-range cells read as
0; decoding never consults them, see the agreement theorem). -/
def memOf (l : List Nat) : Nat → Nat := fun i => l.getD i 0

/-! ### Boundary layer

From `src/experimental/cpp-bindings/common/generated_c.cpp` (plugin
handles) and `src/test-dist/cpp/src/generated_c.cpp` (message handles).
A C handle argument is modelled as `Option` of the owning struct, with
`none` for the null pointer; the struct mirrors `PluginHandleImpl` /
`MessageHandleImpl`. -/

/-- `PluginHandleImpl` from the experimental bindings. -/
structure PluginHandleImpl where
  plugins : List Plugin
  error : String := ""
  encoded_data : List Nat := []
deriving Repr, DecidableEq

/-- `MessageHandleImpl` from the test-dist bindings. -/
structure MessageHandleImpl where
  items : List Plugin
  error : String := ""
  encoded_data : List Nat := []
deriving Repr, DecidableEq

/-- `ParameterHandleImpl`: in C++ a back-pointer into the owning
plugin's parameter vector; modelled by the parameter value it points
at (all accessors are read-only). -/
structure ParameterHandleImpl where
  param : Parameter
deriving Repr, DecidableEq

/-- `plugin_decode(data, len, &err)`: reject empty input, decode via the
codec, reject an empty plugin list, otherwise take ownership. -/
def plugin_decode (data : Nat → Nat) (len : Nat) : Except String PluginHandleImpl :=
  if len = 0 then .error "Invalid input data"
  else
    match decode_plugin_message data len with
    | .error e => .error e
    | .ok plugins =>
      if plugins.isEmpty then .error "No plugins in message"
      else .ok { plugins := plugins }

/-- `message_decode(data, len, &err)` from test-dist: same shape with
its own empty-message text. -/
def message_decode (data : Nat → Nat) (len : Nat) : Except String MessageHandleImpl :=
  if len = 0 then .error "Invalid input data"
  else
    match decode_plugin_message data len with
    | .error e => .error e
    | .ok result =>
      if result.isEmpty then .error "No items in message"
      else .ok { items := result }

/-- `plugin_encode(handle, &out, &err)`: null handle is an error;
otherwise encode the owned vector, cache it in `encoded_data` and return
a copy of the bytes. -/
def plugin_encode (h : Option PluginHandleImpl) :
    Except String (List Nat × PluginHandleImpl) :=
  match h with
  | none => .error "Invalid handle"
  | some impl =>
    .ok (encode_plugin_message impl.plugins,
         { impl with encoded_data := encode_plugin_message impl.plugins })

/-- `message_encode(handle, &out, &err)` from test-dist. -/
def message_encode (h : Option MessageHandleImpl) :
    Except String (List Nat × MessageHandleImpl) :=
  match h with
  | none => .error "Invalid handle"
  | some impl =>
    .ok (encode_plugin_message impl.items,
         { impl with encoded_data := encode_plugin_message impl.items })

/-- The `impl->plugins[0]` access shared by all plugin accessors; decode
guarantees the vector is non-empty, so the default is never reached on a
handle produced by `plugin_decode`. -/
def firstPlugin (impl : PluginHandleImpl) : Plugin :=
  impl.plugins.headD default

/-- `plugin_get_name`: null-handle sentinel, else the first plugin's
name. -/
def plugin_get_name (h : Option PluginHandleImpl) : Option (List Nat) :=
  match h with
  | none => none
  | some impl => some (firstPlugin impl).Name

/-- `plugin_get_parameters_count`. -/
def plugin_get_parameters_count (h : Option PluginHandleImpl) : Nat :=
  match h with
  | none => 0
  | some impl => (firstPlugin impl).Parameters.length

/-- `plugin_get_parameter(handle, index)`: null sentinel for a null
handle or an out-of-range index, else a handle on the addressed
parameter. -/
def plugin_get_parameter (h : Option PluginHandleImpl) (index : Nat) :
    Option ParameterHandleImpl :=
  match h with
  | none => none
  | some impl =>
    if index ≥ (firstPlugin impl).Parameters.length then none
    else some { param := (firstPlugin impl).Parameters.getD index default }

/-- `parameter_get_indexed_values_count`: 0 for a null handle or an
absent `IndexedValues`. -/
def parameter_get_indexed_values_count (h : Option ParameterHandleImpl) : Nat :=
  match h with
  | none => 0
  | some impl =>
    match impl.param.IndexedValues with
    | none => 0
    | some l => l.length

/-- `parameter_get_indexed_value(handle, index)`: null sentinel for a
null handle, an absent `IndexedValues`, or an out-of-range index. -/
def parameter_get_indexed_value (h : Option ParameterHandleImpl) (index : Nat) :
    Option (List Nat) :=
  match h with
  | none => none
  | some impl =>
    match impl.param.IndexedValues with
    | none => none
    | some l => if index ≥ l.length then none else some (l.getD index [])

/-! ### Proof infrastructure

Three behaviour predicates over readers, proved for every reader of the
decoder bottom-up:

* `Sound r` — a run either fails with the single decode error, or
  succeeds with a cursor that never exceeds the supplied length and is
  stable under enlarging the buffer;
* `Agrees r` — a run only consults bytes at offsets below the supplied
  length (two memories agreeing there give identical runs);
* `RW w x r` — reading from a buffer that carries the encoding `w` at
  the cursor yields exactly `x` and advances the cursor by `w.length`
  (the round-trip workhorse). -/

/-- Success of a reader advances the cursor at most to `size`, and is
stable under enlarging the buffer; any failure is the codec's single
decode error. -/
def Sound {α : Type} (r : (Nat → Nat) → Nat → Nat → Except String (α × Nat)) : Prop :=
  ∀ data size pos, pos ≤ size →
    r data size pos = .error insufficient ∨
    ∃ x p, r data size pos = .ok (x, p) ∧ pos ≤ p ∧ p ≤ size ∧
      ∀ size', size ≤ size' → r data size' pos = .ok (x, p)

/-- A reader's run depends only on the bytes at offsets below `size`. -/
def Agrees {α : Type} (r : (Nat → Nat) → Nat → Nat → Except String (α × Nat)) : Prop :=
  ∀ d1 d2 size pos, (∀ i, i < size → d1 i = d2 i) →
    r d1 size pos = r d2 size pos

/-- Reading at a cursor where the buffer carries the byte chunk `w`
yields `x` and consumes exactly `w`. -/
def RW {α : Type} (w : List Nat) (x : α)
    (r : (Nat → Nat) → Nat → Nat → Except String (α × Nat)) : Prop :=
  ∀ data size pos,
    (∀ i, i < w.length → data (pos + i) % 256 = w.getD i 0 % 256) →
    pos + w.length ≤ size →
    r data size pos = .ok (x, pos + w.length)

@[simp] theorem count_bytes_length (n : Nat) : (count_bytes n).length = 2 := rfl

@[simp] theorem write_bool_length (b : Bool) : (write_bool b).length = 1 := by
  cases b <;> rfl

@[simp] theorem u32_bytes_length (u : Nat) : (u32_bytes u).length = 4 := rfl

@[simp] theorem u64_bytes_length (u : Nat) : (u64_bytes u).length = 8 := rfl

@[simp] theorem write_int32_length (v : Int) : (write_int32 v).length = 4 := rfl

@[simp] theorem write_int64_length (v : Int) : (write_int64 v).length = 8 := rfl

@[simp] theorem write_float32_length (u : Nat) : (write_float32 u).length = 4 := rfl

@[simp] theorem write_string_length (s : List Nat) :
    (write_string s).length = 2 + s.length := by
  simp [write_string, count_bytes]
  omega

/-- Restrict an `RW` byte hypothesis over `w1 ++ w2` to its first chunk. -/
theorem rw_hyp_take {w1 w2 : List Nat} {data : Nat → Nat} {pos : Nat}
    (h : ∀ i, i < (w1 ++ w2).length → data (pos + i) % 256 = (w1 ++ w2).getD i 0 % 256) :
    ∀ i, i < w1.length → data (pos + i) % 256 = w1.getD i 0 % 256 := by
  intro i hi
  rw [h i (by simp only [List.length_append]; omega), List.getD_append _ _ _ _ hi]

/-- Restrict an `RW` byte hypothesis over `w1 ++ w2` to its second
chunk, shifting the cursor past the first. -/
theorem rw_hyp_drop {w1 w2 : List Nat} {data : Nat → Nat} {pos : Nat}
    (h : ∀ i, i < (w1 ++ w2).length → data (pos + i) % 256 = (w1 ++ w2).getD i 0 % 256) :
    ∀ i, i < w2.length → data (pos + w1.length + i) % 256 = w2.getD i 0 % 256 := by
  intro i hi
  have h2 := h (w1.length + i) (by simp only [List.length_append]; omega)
  rw [Nat.add_assoc, h2, List.getD_append_right _ _ _ _ (Nat.le_add_right _ _),
      Nat.add_sub_cancel_left]

/-- Rebuilding a byte list from positional `getD` lookups. -/
theorem map_range_getD (l : List Nat) :
    (List.range l.length).map (fun i => l.getD i 0) = l := by
  apply List.ext_getElem
  · simp
  · intro i h1 h2
    simp [List.getD_eq_getElem l 0 h2, List.getElem?_eq_getElem h2]

/-! ### Primitive reader lemmas -/

/-- Zeta-reduced characterization of `read_string`. -/
theorem read_string_eq (data : Nat → Nat) (size pos : Nat) :
    read_string data size pos =
      if pos + 2 ≤ size then
        if pos + 2 + (data pos % 256 + data (pos + 1) % 256 * 256) ≤ size then
          .ok ((List.range (data pos % 256 + data (pos + 1) % 256 * 256)).map
                 (fun i => data (pos + 2 + i) % 256),
               pos + 2 + (data pos % 256 + data (pos + 1) % 256 * 256))
        else .error insufficient
      else .error insufficient := rfl

theorem sound_read_bool : Sound read_bool := by
  intro data size pos hpos
  unfold read_bool
  by_cases hc : pos + 1 ≤ size
  · exact Or.inr ⟨_, pos + 1, by rw [if_pos hc], by omega, hc,
      fun size' hs => by rw [if_pos (by omega)]⟩
  · exact Or.inl (by rw [if_neg hc])

theorem sound_read_array_length : Sound read_array_length := by
  intro data size pos hpos
  unfold read_array_length
  by_cases hc : pos + 2 ≤ size
  · exact Or.inr ⟨_, pos + 2, by rw [if_pos hc], by omega, hc,
      fun size' hs => by rw [if_pos (by omega)]⟩
  · exact Or.inl (by rw [if_neg hc])

theorem sound_read_int32 : Sound read_int32 := by
  intro data size pos hpos
  unfold read_int32
  by_cases hc : pos + 4 ≤ size
  · exact Or.inr ⟨_, pos + 4, by rw [if_pos hc], by omega, hc,
      fun size' hs => by rw [if_pos (by omega)]⟩
  · exact Or.inl (by rw [if_neg hc])

theorem sound_read_int64 : Sound read_int64 := by
  intro data size pos hpos
  unfold read_int64
  by_cases hc : pos + 8 ≤ size
  · exact Or.inr ⟨_, pos + 8, by rw [if_pos hc], by omega, hc,
      fun size' hs => by rw [if_pos (by omega)]⟩
  · exact Or.inl (by rw [if_neg hc])

theorem sound_read_float32 : Sound read_float32 := by
  intro data size pos hpos
  unfold read_float32
  rcases sound_read_int32 data size pos hpos with h | ⟨v, p, h, hle, hsz, hm⟩
  · exact Or.inl (by rw [h])
  · exact Or.inr ⟨toU32 v, p, by rw [h], hle, hsz,
      fun size' hs => by rw [hm size' hs]⟩

theorem sound_read_string : Sound read_string := by
  intro data size pos hpos
  rw [read_string_eq]
  by_cases hc : pos + 2 ≤ size
  · by_cases hc2 : pos + 2 + (data pos % 256 + data (pos + 1) % 256 * 256) ≤ size
    · refine Or.inr ⟨(List.range (data pos % 256 + data (pos + 1) % 256 * 256)).map
        (fun i => data (pos + 2 + i) % 256),
        pos + 2 + (data pos % 256 + data (pos + 1) % 256 * 256), ?_, by omega, hc2,
        fun size' hs => ?_⟩
      · rw [if_pos hc, if_pos hc2]
      · rw [read_string_eq, if_pos (by omega), if_pos (by omega)]
    · exact Or.inl (by rw [if_pos hc, if_neg hc2])
  · exact Or.inl (by rw [if_neg hc])

theorem agrees_read_bool : Agrees read_bool := by
  intro d1 d2 size pos h
  unfold read_bool
  by_cases hc : pos + 1 ≤ size
  · rw [if_pos hc, if_pos hc, h pos (by omega)]
  · rw [if_neg hc, if_neg hc]

theorem agrees_read_array_length : Agrees read_array_length := by
  intro d1 d2 size pos h
  unfold read_array_length
  by_cases hc : pos + 2 ≤ size
  · rw [if_pos hc, if_pos hc, h pos (by omega), h (pos + 1) (by omega)]
  · rw [if_neg hc, if_neg hc]

theorem agrees_read_int32 : Agrees read_int32 := by
  intro d1 d2 size pos h
  unfold read_int32
  by_cases hc : pos + 4 ≤ size
  · rw [if_pos hc, if_pos hc, h pos (by omega), h (pos + 1) (by omega),
      h (pos + 2) (by omega), h (pos + 3) (by omega)]
  · rw [if_neg hc, if_neg hc]

theorem agrees_read_int64 : Agrees read_int64 := by
  intro d1 d2 size pos h
  unfold read_int64
  by_cases hc : pos + 8 ≤ size
  · rw [if_pos hc, if_pos hc, h pos (by omega), h (pos + 1) (by omega),
      h (pos + 2) (by omega), h (pos + 3) (by omega), h (pos + 4) (by omega),
      h (pos + 5) (by omega), h (pos + 6) (by omega), h (pos + 7) (by omega)]
  · rw [if_neg hc, if_neg hc]

theorem agrees_read_float32 : Agrees read_float32 := by
  intro d1 d2 size pos h
  unfold read_float32
  rw [agrees_read_int32 d1 d2 size pos h]

theorem agrees_read_string : Agrees read_string := by
  intro d1 d2 size pos h
  unfold read_string
  by_cases hc : pos + 2 ≤ size
  · rw [if_pos hc, if_pos hc]
    simp only []
    rw [h pos (by omega), h (pos + 1) (by omega)]
    by_cases hc2 : pos + 2 + (d2 pos % 256 + d2 (pos + 1) % 256 * 256) ≤ size
    · rw [if_pos hc2, if_pos hc2]
      congr 1
      congr 1
      apply List.map_congr_left
      intro i hi
      rw [List.mem_range] at hi
      rw [h (pos + 2 + i) (by omega)]
    · rw [if_neg hc2, if_neg hc2]
  · rw [if_neg hc, if_neg hc]

theorem rw_read_bool (b : Bool) : RW (write_bool b) b read_bool := by
  intro data size pos hw hsz
  rw [write_bool_length] at hsz
  have hb := hw 0 (by rw [write_bool_length]; omega)
  rw [Nat.add_zero] at hb
  unfold read_bool
  rw [if_pos (by omega), write_bool_length]
  cases b
  · simp only [write_bool, List.getD] at hb
    norm_num at hb
    simp [hb]
  · simp only [write_bool, List.getD] at hb
    norm_num at hb
    simp [hb]

theorem rw_read_array_length (n : Nat) :
    RW (count_bytes n) (n % 65536) read_array_length := by
  intro data size pos hw hsz
  rw [count_bytes_length] at hsz
  have h0 := hw 0 (by rw [count_bytes_length]; omega)
  have h1 := hw 1 (by rw [count_bytes_length]; omega)
  rw [Nat.add_zero] at h0
  simp only [count_bytes, List.getD] at h0 h1
  norm_num at h0 h1
  unfold read_array_length
  rw [if_pos (by omega), count_bytes_length, h0, h1]
  congr 2
  omega

theorem rw_read_int32 (v : Int) (hlo : -(2 ^ 31) ≤ v) (hhi : v < 2 ^ 31) :
    RW (write_int32 v) v read_int32 := by
  intro data size pos hw hsz
  rw [write_int32_length] at hsz
  have h0 := hw 0 (by rw [write_int32_length]; omega)
  have h1 := hw 1 (by rw [write_int32_length]; omega)
  have h2 := hw 2 (by rw [write_int32_length]; omega)
  have h3 := hw 3 (by rw [write_int32_length]; omega)
  rw [Nat.add_zero] at h0
  have g0 : (write_int32 v).getD 0 0 = (v % (2 ^ 32 : Int)).toNat % 256 := rfl
  have g1 : (write_int32 v).getD 1 0 = (v % (2 ^ 32 : Int)).toNat / 2 ^ 8 % 256 := rfl
  have g2 : (write_int32 v).getD 2 0 = (v % (2 ^ 32 : Int)).toNat / 2 ^ 16 % 256 := rfl
  have g3 : (write_int32 v).getD 3 0 = (v % (2 ^ 32 : Int)).toNat / 2 ^ 24 % 256 := rfl
  rw [g0] at h0
  rw [g1] at h1
  rw [g2] at h2
  rw [g3] at h3
  have hread : data pos % 256 + data (pos + 1) % 256 * 2 ^ 8 +
      data (pos + 2) % 256 * 2 ^ 16 + data (pos + 3) % 256 * 2 ^ 24 =
      (v % (2 ^ 32 : Int)).toNat := by omega
  unfold read_int32
  rw [if_pos (by omega), write_int32_length, hread]
  have hval : toInt32 ((v % (2 ^ 32 : Int)).toNat) = v := by
    unfold toInt32
    by_cases hvn : 0 ≤ v
    · rw [if_pos (by omega)]
      omega
    · rw [if_neg (by omega)]
      omega
  rw [hval]

theorem rw_read_int64 (v : Int) (hlo : -(2 ^ 63) ≤ v) (hhi : v < 2 ^ 63) :
    RW (write_int64 v) v read_int64 := by
  intro data size pos hw hsz
  rw [write_int64_length] at hsz
  have h0 := hw 0 (by rw [write_int64_length]; omega)
  have h1 := hw 1 (by rw [write_int64_length]; omega)
  have h2 := hw 2 (by rw [write_int64_length]; omega)
  have h3 := hw 3 (by rw [write_int64_length]; omega)
  have h4 := hw 4 (by rw [write_int64_length]; omega)
  have h5 := hw 5 (by rw [write_int64_length]; omega)
  have h6 := hw 6 (by rw [write_int64_length]; omega)
  have h7 := hw 7 (by rw [write_int64_length]; omega)
  rw [Nat.add_zero] at h0
  have g0 : (write_int64 v).getD 0 0 = (v % (2 ^ 64 : Int)).toNat % 256 := rfl
  have g1 : (write_int64 v).getD 1 0 = (v % (2 ^ 64 : Int)).toNat / 2 ^ 8 % 256 := rfl
  have g2 : (write_int64 v).getD 2 0 = (v % (2 ^ 64 : Int)).toNat / 2 ^ 16 % 256 := rfl
  have g3 : (write_int64 v).getD 3 0 = (v % (2 ^ 64 : Int)).toNat / 2 ^ 24 % 256 := rfl
  have g4 : (write_int64 v).getD 4 0 = (v % (2 ^ 64 : Int)).toNat / 2 ^ 32 % 256 := rfl
  have g5 : (write_int64 v).getD 5 0 = (v % (2 ^ 64 : Int)).toNat / 2 ^ 40 % 256 := rfl
  have g6 : (write_int64 v).getD 6 0 = (v % (2 ^ 64 : Int)).toNat / 2 ^ 48 % 256 := rfl
  have g7 : (write_int64 v).getD 7 0 = (v % (2 ^ 64 : Int)).toNat / 2 ^ 56 % 256 := rfl
  rw [g0] at h0
  rw [g1] at h1
  rw [g2] at h2
  rw [g3] at h3
  rw [g4] at h4
  rw [g5] at h5
  rw [g6] at h6
  rw [g7] at h7
  have hread : data pos % 256 + data (pos + 1) % 256 * 2 ^ 8 +
      data (pos + 2) % 256 * 2 ^ 16 + data (pos + 3) % 256 * 2 ^ 24 +
      data (pos + 4) % 256 * 2 ^ 32 + data (pos + 5) % 256 * 2 ^ 40 +
      data (pos + 6) % 256 * 2 ^ 48 + data (pos + 7) % 256 * 2 ^ 56 =
      (v % (2 ^ 64 : Int)).toNat := by omega
  unfold read_int64
  rw [if_pos (by omega), write_int64_length, hread]
  have hval : toInt64 ((v % (2 ^ 64 : Int)).toNat) = v := by
    unfold toInt64
    by_cases hvn : 0 ≤ v
    · rw [if_pos (by omega)]
      omega
    · rw [if_neg (by omega)]
      omega
  rw [hval]

theorem rw_read_float32 (u : Nat) (hu : u < 2 ^ 32) :
    RW (write_float32 u) u read_float32 := by
  intro data size pos hw hsz
  rw [write_float32_length] at hsz
  have h0 := hw 0 (by rw [write_float32_length]; omega)
  have h1 := hw 1 (by rw [write_float32_length]; omega)
  have h2 := hw 2 (by rw [write_float32_length]; omega)
  have h3 := hw 3 (by rw [write_float32_length]; omega)
  rw [Nat.add_zero] at h0
  have g0 : (write_float32 u).getD 0 0 = u % 256 := rfl
  have g1 : (write_float32 u).getD 1 0 = u / 2 ^ 8 % 256 := rfl
  have g2 : (write_float32 u).getD 2 0 = u / 2 ^ 16 % 256 := rfl
  have g3 : (write_float32 u).getD 3 0 = u / 2 ^ 24 % 256 := rfl
  rw [g0] at h0
  rw [g1] at h1
  rw [g2] at h2
  rw [g3] at h3
  have hread : data pos % 256 + data (pos + 1) % 256 * 2 ^ 8 +
      data (pos + 2) % 256 * 2 ^ 16 + data (pos + 3) % 256 * 2 ^ 24 = u := by omega
  have hint : read_int32 data size pos = .ok (toInt32 u, pos + 4) := by
    unfold read_int32
    rw [if_pos (by omega), hread]
  have hval : toU32 (toInt32 u) = u := by
    unfold toU32 toInt32
    by_cases hc : u < 2 ^ 31
    · rw [if_pos hc]
      omega
    · rw [if_neg hc]
      omega
  unfold read_float32
  rw [hint]
  show Except.ok (toU32 (toInt32 u), pos + 4) =
    Except.ok (u, pos + (write_float32 u).length)
  rw [write_float32_length, hval]

theorem rw_read_string (s : List Nat) (hlen : s.length ≤ 65535)
    (hbytes : ∀ b ∈ s, b < 256) : RW (write_string s) s read_string := by
  intro data size pos hw hsz
  rw [write_string_length] at hsz
  have h0 := hw 0 (by rw [write_string_length]; omega)
  have h1 := hw 1 (by rw [write_string_length]; omega)
  rw [Nat.add_zero] at h0
  have g0 : (write_string s).getD 0 0 = s.length % 65536 % 256 := rfl
  have g1 : (write_string s).getD 1 0 = s.length % 65536 / 256 % 256 := rfl
  rw [g0] at h0
  rw [g1] at h1
  have hlen0 : data pos % 256 = s.length % 65536 % 256 := by omega
  have hlen1 : data (pos + 1) % 256 = s.length % 65536 / 256 % 256 := by omega
  rw [read_string_eq, hlen0, hlen1]
  have hlenv : s.length % 65536 % 256 + s.length % 65536 / 256 % 256 * 256 =
      s.length := by omega
  rw [hlenv, if_pos (by omega), if_pos (by omega), write_string_length]
  have hmap : (List.range s.length).map (fun i => data (pos + 2 + i) % 256) = s := by
    apply List.ext_getElem
    · simp
    · intro i h1' h2'
      have hi : i < s.length := by simpa using h1'
      have hwc := hw (2 + i) (by rw [write_string_length]; omega)
      rw [show pos + (2 + i) = pos + 2 + i by omega] at hwc
      have gc : (write_string s).getD (2 + i) 0 = s.getD i 0 := by
        unfold write_string
        rw [List.getD_append_right _ _ _ _ (by rw [count_bytes_length]; omega),
          count_bytes_length, Nat.add_sub_cancel_left]
      rw [gc] at hwc
      have hsb : s.getD i 0 = s[i] := List.getD_eq_getElem s 0 hi
      have hblt : s[i] < 256 := hbytes _ (List.getElem_mem hi)
      simp only [List.getElem_map, List.getElem_range]
      rw [hwc, hsb, Nat.mod_eq_of_lt hblt]
  rw [hmap, Nat.add_assoc]

/-! ### Well-formedness

Representation invariants of the C++ types (`std::string` holds bytes;
float bit patterns are `uint32_t`; `int32_t`/`int64_t` ranges), plus the
16-bit size limits of the wire format. -/

/-- A text value: at most 65535 bytes, each below 256. -/
def wfString (s : List Nat) : Prop :=
  s.length ≤ 65535 ∧ ∀ b ∈ s, b < 256

/-- Well-formed optional `IndexedValues`. -/
def wfIV : Option (List (List Nat)) → Prop
  | none => True
  | some l => l.length ≤ 65535 ∧ ∀ s ∈ l, wfString s

/-- Well-formed optional `IndexedValuesSource`. -/
def wfSrc : Option (List Nat) → Prop
  | none => True
  | some s => wfString s

/-- Well-formed `Parameter`: every field within its C++ type's range. -/
def wfParameter (p : Parameter) : Prop :=
  wfString p.DisplayName ∧ p.DefaultValue < 2 ^ 32 ∧ p.CurrentValue < 2 ^ 32 ∧
  -(2 ^ 31) ≤ p.Address ∧ p.Address < 2 ^ 31 ∧ p.MaxValue < 2 ^ 32 ∧
  p.MinValue < 2 ^ 32 ∧ wfString p.Unit ∧ wfString p.Identifier ∧
  -(2 ^ 63) ≤ p.RawFlags ∧ p.RawFlags < 2 ^ 63 ∧ wfIV p.IndexedValues ∧
  wfSrc p.IndexedValuesSource

/-- Well-formed `Plugin`. -/
def wfPlugin (pl : Plugin) : Prop :=
  wfString pl.Name ∧ wfString pl.ManufacturerID ∧ wfString pl.Type' ∧
  wfString pl.Subtype ∧ pl.Parameters.length ≤ 65535 ∧
  ∀ p ∈ pl.Parameters, wfParameter p

/-- Well-formed `Message`. -/
def wfMessage (msg : List Plugin) : Prop :=
  msg.length ≤ 65535 ∧ ∀ pl ∈ msg, wfPlugin pl

instance (s : List Nat) : Decidable (wfString s) :=
  inferInstanceAs (Decidable (_ ∧ _))

instance : (o : Option (List (List Nat))) → Decidable (wfIV o)
  | none => isTrue trivial
  | some _ => inferInstanceAs (Decidable (_ ∧ _))

instance : (o : Option (List Nat)) → Decidable (wfSrc o)
  | none => isTrue trivial
  | some s => inferInstanceAs (Decidable (wfString s))

instance (p : Parameter) : Decidable (wfParameter p) :=
  inferInstanceAs (Decidable (_ ∧ _))

instance (pl : Plugin) : Decidable (wfPlugin pl) :=
  inferInstanceAs (Decidable (_ ∧ _))

instance (msg : List Plugin) : Decidable (wfMessage msg) :=
  inferInstanceAs (Decidable (_ ∧ _))

/-! ### Composite reader lemmas: soundness -/

theorem sound_decode_strings (n : Nat) :
    Sound (fun d s p => decode_strings d s n p) := by
  induction n with
  | zero =>
    intro data size pos hpos
    exact Or.inr ⟨[], pos, rfl, Nat.le_refl pos, hpos, fun size' hs => rfl⟩
  | succ n ih =>
    intro data size pos hpos
    rcases sound_read_string data size pos hpos with h1 | ⟨s, p1, h1, hle1, hsz1, hm1⟩
    · exact Or.inl (by simp only [decode_strings, h1])
    · rcases ih data size p1 hsz1 with h2 | ⟨ss, p2, h2, hle2, hsz2, hm2⟩
      · exact Or.inl (by simp only [decode_strings, h1, h2])
      · exact Or.inr ⟨s :: ss, p2, by simp only [decode_strings, h1, h2], by omega,
          hsz2, fun size' hs => by
            simp only [decode_strings, hm1 size' hs, hm2 size' hs]⟩

theorem sound_read_opt_iv : Sound read_opt_iv := by
  intro data size pos hpos
  rcases sound_read_bool data size pos hpos with h1 | ⟨flag, p1, h1, hle1, hsz1, hm1⟩
  · exact Or.inl (by simp only [read_opt_iv, h1])
  · cases flag with
    | false =>
      exact Or.inr ⟨none, p1, by simp only [read_opt_iv, h1, Bool.false_eq_true, if_false],
        hle1, hsz1, fun size' hs => by
          simp only [read_opt_iv, hm1 size' hs, Bool.false_eq_true, if_false]⟩
    | true =>
      rcases sound_read_array_length data size p1 hsz1 with
        h2 | ⟨cnt, p2, h2, hle2, hsz2, hm2⟩
      · exact Or.inl (by simp only [read_opt_iv, h1, if_true, h2])
      · rcases sound_decode_strings cnt data size p2 hsz2 with
          h3 | ⟨vals, p3, h3, hle3, hsz3, hm3⟩
        · exact Or.inl (by simp only [read_opt_iv, h1, if_true, h2, h3])
        · exact Or.inr ⟨some vals, p3,
            by simp only [read_opt_iv, h1, if_true, h2, h3], by omega, hsz3,
            fun size' hs => by
              simp only [read_opt_iv, hm1 size' hs, if_true, hm2 size' hs,
                hm3 size' hs]⟩

theorem sound_read_opt_src : Sound read_opt_src := by
  intro data size pos hpos
  rcases sound_read_bool data size pos hpos with h1 | ⟨flag, p1, h1, hle1, hsz1, hm1⟩
  · exact Or.inl (by simp only [read_opt_src, h1])
  · cases flag with
    | false =>
      exact Or.inr ⟨none, p1, by simp only [read_opt_src, h1, Bool.false_eq_true, if_false],
        hle1, hsz1, fun size' hs => by
          simp only [read_opt_src, hm1 size' hs, Bool.false_eq_true, if_false]⟩
    | true =>
      rcases sound_read_string data size p1 hsz1 with h2 | ⟨t, p2, h2, hle2, hsz2, hm2⟩
      · exact Or.inl (by simp only [read_opt_src, h1, if_true, h2])
      · exact Or.inr ⟨some t, p2, by simp only [read_opt_src, h1, if_true, h2],
          by omega, hsz2, fun size' hs => by
            simp only [read_opt_src, hm1 size' hs, if_true, hm2 size' hs]⟩

theorem sound_decode_parameter : Sound decode_parameter := by
  intro data size pos hpos
  rcases sound_read_string data size pos hpos with h1 | ⟨dn, p1, h1, hle1, hsz1, hm1⟩
  · exact Or.inl (by simp only [decode_parameter, h1])
  ·
    rcases sound_read_float32 data size p1 hsz1 with h2 | ⟨dv, p2, h2, hle2, hsz2, hm2⟩
    · exact Or.inl (by simp only [decode_parameter, h1, h2])
    ·
      rcases sound_read_float32 data size p2 hsz2 with h3 | ⟨cv, p3, h3, hle3, hsz3, hm3⟩
      · exact Or.inl (by simp only [decode_parameter, h1, h2, h3])
      ·
        rcases sound_read_int32 data size p3 hsz3 with h4 | ⟨addr, p4, h4, hle4, hsz4, hm4⟩
        · exact Or.inl (by simp only [decode_parameter, h1, h2, h3, h4])
        ·
          rcases sound_read_float32 data size p4 hsz4 with h5 | ⟨mx, p5, h5, hle5, hsz5, hm5⟩
          · exact Or.inl (by simp only [decode_parameter, h1, h2, h3, h4, h5])
          ·
            rcases sound_read_float32 data size p5 hsz5 with h6 | ⟨mn, p6, h6, hle6, hsz6, hm6⟩
            · exact Or.inl (by simp only [decode_parameter, h1, h2, h3, h4, h5, h6])
            ·
              rcases sound_read_string data size p6 hsz6 with h7 | ⟨u, p7, h7, hle7, hsz7, hm7⟩
              · exact Or.inl (by simp only [decode_parameter, h1, h2, h3, h4, h5, h6, h7])
              ·
                rcases sound_read_string data size p7 hsz7 with h8 | ⟨ident, p8, h8, hle8, hsz8, hm8⟩
                · exact Or.inl (by simp only [decode_parameter, h1, h2, h3, h4, h5, h6, h7, h8])
                ·
                  rcases sound_read_bool data size p8 hsz8 with h9 | ⟨cr, p9, h9, hle9, hsz9, hm9⟩
                  · exact Or.inl (by simp only [decode_parameter, h1, h2, h3, h4, h5, h6, h7, h8, h9])
                  ·
                    rcases sound_read_bool data size p9 hsz9 with h10 | ⟨iw, p10, h10, hle10, hsz10, hm10⟩
                    · exact Or.inl (by simp only [decode_parameter, h1, h2, h3, h4, h5, h6, h7, h8, h9, h10])
                    ·
                      rcases sound_read_int64 data size p10 hsz10 with h11 | ⟨rf, p11, h11, hle11, hsz11, hm11⟩
                      · exact Or.inl (by simp only [decode_parameter, h1, h2, h3, h4, h5, h6, h7, h8, h9, h10, h11])
                      ·
                        rcases sound_read_opt_iv data size p11 hsz11 with h12 | ⟨iv, p12, h12, hle12, hsz12, hm12⟩
                        · exact Or.inl (by simp only [decode_parameter, h1, h2, h3, h4, h5, h6, h7, h8, h9, h10, h11, h12])
                        ·
                          rcases sound_read_opt_src data size p12 hsz12 with h13 | ⟨src, p13, h13, hle13, hsz13, hm13⟩
                          · exact Or.inl (by simp only [decode_parameter, h1, h2, h3, h4, h5, h6, h7, h8, h9, h10, h11, h12, h13])
                          ·
                            refine Or.inr ⟨{ DisplayName := dn, DefaultValue := dv, CurrentValue := cv, Address := addr, MaxValue := mx, MinValue := mn, Unit := u, Identifier := ident, CanRamp := cr, IsWritable := iw, RawFlags := rf, IndexedValues := iv, IndexedValuesSource := src }, p13,
                              by simp only [decode_parameter, h1, h2, h3, h4, h5, h6, h7, h8, h9, h10, h11, h12, h13], by omega, hsz13,
                              fun size' hs => by simp only [decode_parameter, hm1 size' hs, hm2 size' hs, hm3 size' hs, hm4 size' hs, hm5 size' hs, hm6 size' hs, hm7 size' hs, hm8 size' hs, hm9 size' hs, hm10 size' hs, hm11 size' hs, hm12 size' hs, hm13 size' hs]⟩

theorem sound_decode_parameters (n : Nat) :
    Sound (fun d s p => decode_parameters d s n p) := by
  induction n with
  | zero =>
    intro data size pos hpos
    exact Or.inr ⟨[], pos, rfl, Nat.le_refl pos, hpos, fun size' hs => rfl⟩
  | succ n ih =>
    intro data size pos hpos
    rcases sound_decode_parameter data size pos hpos with
      h1 | ⟨q, p1, h1, hle1, hsz1, hm1⟩
    · exact Or.inl (by simp only [decode_parameters, h1])
    · rcases ih data size p1 hsz1 with h2 | ⟨qs, p2, h2, hle2, hsz2, hm2⟩
      · exact Or.inl (by simp only [decode_parameters, h1, h2])
      · exact Or.inr ⟨q :: qs, p2, by simp only [decode_parameters, h1, h2], by omega,
          hsz2, fun size' hs => by
            simp only [decode_parameters, hm1 size' hs, hm2 size' hs]⟩

theorem sound_decode_plugin : Sound decode_plugin := by
  intro data size pos hpos
  rcases sound_read_string data size pos hpos with h1 | ⟨nm, p1, h1, hle1, hsz1, hm1⟩
  · exact Or.inl (by simp only [decode_plugin, h1])
  ·
    rcases sound_read_string data size p1 hsz1 with h2 | ⟨mid, p2, h2, hle2, hsz2, hm2⟩
    · exact Or.inl (by simp only [decode_plugin, h1, h2])
    ·
      rcases sound_read_string data size p2 hsz2 with h3 | ⟨ty, p3, h3, hle3, hsz3, hm3⟩
      · exact Or.inl (by simp only [decode_plugin, h1, h2, h3])
      ·
        rcases sound_read_string data size p3 hsz3 with h4 | ⟨st, p4, h4, hle4, hsz4, hm4⟩
        · exact Or.inl (by simp only [decode_plugin, h1, h2, h3, h4])
        ·
          rcases sound_read_array_length data size p4 hsz4 with h5 | ⟨cnt, p5, h5, hle5, hsz5, hm5⟩
          · exact Or.inl (by simp only [decode_plugin, h1, h2, h3, h4, h5])
          ·
            rcases sound_decode_parameters cnt data size p5 hsz5 with h6 | ⟨params, p6, h6, hle6, hsz6, hm6⟩
            · exact Or.inl (by simp only [decode_plugin, h1, h2, h3, h4, h5, h6])
            ·
              refine Or.inr ⟨{ Name := nm, ManufacturerID := mid, Type' := ty, Subtype := st, Parameters := params }, p6,
                by simp only [decode_plugin, h1, h2, h3, h4, h5, h6], by omega, hsz6,
                fun size' hs => by simp only [decode_plugin, hm1 size' hs, hm2 size' hs, hm3 size' hs, hm4 size' hs, hm5 size' hs, hm6 size' hs]⟩

theorem sound_decode_plugins (n : Nat) :
    Sound (fun d s p => decode_plugins d s n p) := by
  induction n with
  | zero =>
    intro data size pos hpos
    exact Or.inr ⟨[], pos, rfl, Nat.le_refl pos, hpos, fun size' hs => rfl⟩
  | succ n ih =>
    intro data size pos hpos
    rcases sound_decode_plugin data size pos hpos with
      h1 | ⟨q, p1, h1, hle1, hsz1, hm1⟩
    · exact Or.inl (by simp only [decode_plugins, h1])
    · rcases ih data size p1 hsz1 with h2 | ⟨qs, p2, h2, hle2, hsz2, hm2⟩
      · exact Or.inl (by simp only [decode_plugins, h1, h2])
      · exact Or.inr ⟨q :: qs, p2, by simp only [decode_plugins, h1, h2], by omega,
          hsz2, fun size' hs => by
            simp only [decode_plugins, hm1 size' hs, hm2 size' hs]⟩

/-! ### Composite reader lemmas: memory agreement (no out-of-bounds read) -/

theorem agrees_decode_strings (n : Nat) :
    ∀ d1 d2 size pos, (∀ i, i < size → d1 i = d2 i) →
      decode_strings d1 size n pos = decode_strings d2 size n pos := by
  induction n with
  | zero => intro d1 d2 size pos h; rfl
  | succ n ih =>
    intro d1 d2 size pos h
    have a1 := agrees_read_string d1 d2 size pos h
    cases e1 : read_string d2 size pos with
    | error e =>
      have f1 : read_string d1 size pos = .error e := by rw [a1, e1]
      simp only [decode_strings, e1, f1]
    | ok vp1 =>
      obtain ⟨s, p1⟩ := vp1
      have f1 : read_string d1 size pos = .ok (s, p1) := by rw [a1, e1]
      have a2 := ih d1 d2 size p1 h
      cases e2 : decode_strings d2 size n p1 with
      | error e =>
        have f2 : decode_strings d1 size n p1 = .error e := by rw [a2, e2]
        simp only [decode_strings, e1, f1, e2, f2]
      | ok vp2 =>
        obtain ⟨ss, p2⟩ := vp2
        have f2 : decode_strings d1 size n p1 = .ok (ss, p2) := by rw [a2, e2]
        simp only [decode_strings, e1, f1, e2, f2]

theorem agrees_read_opt_iv : Agrees read_opt_iv := by
  intro d1 d2 size pos h
  have a1 := agrees_read_bool d1 d2 size pos h
  cases e1 : read_bool d2 size pos with
  | error e =>
    have f1 : read_bool d1 size pos = .error e := by rw [a1, e1]
    simp only [read_opt_iv, e1, f1]
  | ok vp1 =>
    obtain ⟨flag, p1⟩ := vp1
    have f1 : read_bool d1 size pos = .ok (flag, p1) := by rw [a1, e1]
    cases flag with
    | false => simp only [read_opt_iv, e1, f1, Bool.false_eq_true, if_false]
    | true =>
      have a2 := agrees_read_array_length d1 d2 size p1 h
      cases e2 : read_array_length d2 size p1 with
      | error e =>
        have f2 : read_array_length d1 size p1 = .error e := by rw [a2, e2]
        simp only [read_opt_iv, e1, f1, if_true, e2, f2]
      | ok vp2 =>
        obtain ⟨cnt, p2⟩ := vp2
        have f2 : read_array_length d1 size p1 = .ok (cnt, p2) := by rw [a2, e2]
        have a3 := agrees_decode_strings cnt d1 d2 size p2 h
        cases e3 : decode_strings d2 size cnt p2 with
        | error e =>
          have f3 : decode_strings d1 size cnt p2 = .error e := by
            rw [show decode_strings d1 size cnt p2 =
              decode_strings d2 size cnt p2 from a3, e3]
          simp only [read_opt_iv, e1, f1, if_true, e2, f2, e3, f3]
        | ok vp3 =>
          obtain ⟨vals, p3⟩ := vp3
          have f3 : decode_strings d1 size cnt p2 = .ok (vals, p3) := by
            rw [show decode_strings d1 size cnt p2 =
              decode_strings d2 size cnt p2 from a3, e3]
          simp only [read_opt_iv, e1, f1, if_true, e2, f2, e3, f3]

theorem agrees_read_opt_src : Agrees read_opt_src := by
  intro d1 d2 size pos h
  have a1 := agrees_read_bool d1 d2 size pos h
  cases e1 : read_bool d2 size pos with
  | error e =>
    have f1 : read_bool d1 size pos = .error e := by rw [a1, e1]
    simp only [read_opt_src, e1, f1]
  | ok vp1 =>
    obtain ⟨flag, p1⟩ := vp1
    have f1 : read_bool d1 size pos = .ok (flag, p1) := by rw [a1, e1]
    cases flag with
    | false => simp only [read_opt_src, e1, f1, Bool.false_eq_true, if_false]
    | true =>
      have a2 := agrees_read_string d1 d2 size p1 h
      cases e2 : read_string d2 size p1 with
      | error e =>
        have f2 : read_string d1 size p1 = .error e := by rw [a2, e2]
        simp only [read_opt_src, e1, f1, if_true, e2, f2]
      | ok vp2 =>
        obtain ⟨t, p2⟩ := vp2
        have f2 : read_string d1 size p1 = .ok (t, p2) := by rw [a2, e2]
        simp only [read_opt_src, e1, f1, if_true, e2, f2]

theorem agrees_decode_parameter : Agrees decode_parameter := by
  intro d1 d2 size pos h
  have a1 := agrees_read_string d1 d2 size pos h
  cases e1 : read_string d2 size pos with
  | error e =>
    have f1 : read_string d1 size pos = .error e := by rw [a1, e1]
    simp only [decode_parameter, e1, f1]
  | ok vp1 =>
    obtain ⟨dn, p1⟩ := vp1
    have f1 : read_string d1 size pos = .ok (dn, p1) := by rw [a1, e1]
    have a2 := agrees_read_float32 d1 d2 size p1 h
    cases e2 : read_float32 d2 size p1 with
    | error e =>
      have f2 : read_float32 d1 size p1 = .error e := by rw [a2, e2]
      simp only [decode_parameter, e1, f1, e2, f2]
    | ok vp2 =>
      obtain ⟨dv, p2⟩ := vp2
      have f2 : read_float32 d1 size p1 = .ok (dv, p2) := by rw [a2, e2]
      have a3 := agrees_read_float32 d1 d2 size p2 h
      cases e3 : read_float32 d2 size p2 with
      | error e =>
        have f3 : read_float32 d1 size p2 = .error e := by rw [a3, e3]
        simp only [decode_parameter, e1, f1, e2, f2, e3, f3]
      | ok vp3 =>
        obtain ⟨cv, p3⟩ := vp3
        have f3 : read_float32 d1 size p2 = .ok (cv, p3) := by rw [a3, e3]
        have a4 := agrees_read_int32 d1 d2 size p3 h
        cases e4 : read_int32 d2 size p3 with
        | error e =>
          have f4 : read_int32 d1 size p3 = .error e := by rw [a4, e4]
          simp only [decode_parameter, e1, f1, e2, f2, e3, f3, e4, f4]
        | ok vp4 =>
          obtain ⟨addr, p4⟩ := vp4
          have f4 : read_int32 d1 size p3 = .ok (addr, p4) := by rw [a4, e4]
          have a5 := agrees_read_float32 d1 d2 size p4 h
          cases e5 : read_float32 d2 size p4 with
          | error e =>
            have f5 : read_float32 d1 size p4 = .error e := by rw [a5, e5]
            simp only [decode_parameter, e1, f1, e2, f2, e3, f3, e4, f4, e5, f5]
          | ok vp5 =>
            obtain ⟨mx, p5⟩ := vp5
            have f5 : read_float32 d1 size p4 = .ok (mx, p5) := by rw [a5, e5]
            have a6 := agrees_read_float32 d1 d2 size p5 h
            cases e6 : read_float32 d2 size p5 with
            | error e =>
              have f6 : read_float32 d1 size p5 = .error e := by rw [a6, e6]
              simp only [decode_parameter, e1, f1, e2, f2, e3, f3, e4, f4, e5, f5, e6, f6]
            | ok vp6 =>
              obtain ⟨mn, p6⟩ := vp6
              have f6 : read_float32 d1 size p5 = .ok (mn, p6) := by rw [a6, e6]
              have a7 := agrees_read_string d1 d2 size p6 h
              cases e7 : read_string d2 size p6 with
              | error e =>
                have f7 : read_string d1 size p6 = .error e := by rw [a7, e7]
                simp only [decode_parameter, e1, f1, e2, f2, e3, f3, e4, f4, e5, f5, e6, f6, e7, f7]
              | ok vp7 =>
                obtain ⟨u, p7⟩ := vp7
                have f7 : read_string d1 size p6 = .ok (u, p7) := by rw [a7, e7]
                have a8 := agrees_read_string d1 d2 size p7 h
                cases e8 : read_string d2 size p7 with
                | error e =>
                  have f8 : read_string d1 size p7 = .error e := by rw [a8, e8]
                  simp only [decode_parameter, e1, f1, e2, f2, e3, f3, e4, f4, e5, f5, e6, f6, e7, f7, e8, f8]
                | ok vp8 =>
                  obtain ⟨ident, p8⟩ := vp8
                  have f8 : read_string d1 size p7 = .ok (ident, p8) := by rw [a8, e8]
                  have a9 := agrees_read_bool d1 d2 size p8 h
                  cases e9 : read_bool d2 size p8 with
                  | error e =>
                    have f9 : read_bool d1 size p8 = .error e := by rw [a9, e9]
                    simp only [decode_parameter, e1, f1, e2, f2, e3, f3, e4, f4, e5, f5, e6, f6, e7, f7, e8, f8, e9, f9]
                  | ok vp9 =>
                    obtain ⟨cr, p9⟩ := vp9
                    have f9 : read_bool d1 size p8 = .ok (cr, p9) := by rw [a9, e9]
                    have a10 := agrees_read_bool d1 d2 size p9 h
                    cases e10 : read_bool d2 size p9 with
                    | error e =>
                      have f10 : read_bool d1 size p9 = .error e := by rw [a10, e10]
                      simp only [decode_parameter, e1, f1, e2, f2, e3, f3, e4, f4, e5, f5, e6, f6, e7, f7, e8, f8, e9, f9, e10, f10]
                    | ok vp10 =>
                      obtain ⟨iw, p10⟩ := vp10
                      have f10 : read_bool d1 size p9 = .ok (iw, p10) := by rw [a10, e10]
                      have a11 := agrees_read_int64 d1 d2 size p10 h
                      cases e11 : read_int64 d2 size p10 with
                      | error e =>
                        have f11 : read_int64 d1 size p10 = .error e := by rw [a11, e11]
                        simp only [decode_parameter, e1, f1, e2, f2, e3, f3, e4, f4, e5, f5, e6, f6, e7, f7, e8, f8, e9, f9, e10, f10, e11, f11]
                      | ok vp11 =>
                        obtain ⟨rf, p11⟩ := vp11
                        have f11 : read_int64 d1 size p10 = .ok (rf, p11) := by rw [a11, e11]
                        have a12 := agrees_read_opt_iv d1 d2 size p11 h
                        cases e12 : read_opt_iv d2 size p11 with
                        | error e =>
                          have f12 : read_opt_iv d1 size p11 = .error e := by rw [a12, e12]
                          simp only [decode_parameter, e1, f1, e2, f2, e3, f3, e4, f4, e5, f5, e6, f6, e7, f7, e8, f8, e9, f9, e10, f10, e11, f11, e12, f12]
                        | ok vp12 =>
                          obtain ⟨iv, p12⟩ := vp12
                          have f12 : read_opt_iv d1 size p11 = .ok (iv, p12) := by rw [a12, e12]
                          have a13 := agrees_read_opt_src d1 d2 size p12 h
                          cases e13 : read_opt_src d2 size p12 with
                          | error e =>
                            have f13 : read_opt_src d1 size p12 = .error e := by rw [a13, e13]
                            simp only [decode_parameter, e1, f1, e2, f2, e3, f3, e4, f4, e5, f5, e6, f6, e7, f7, e8, f8, e9, f9, e10, f10, e11, f11, e12, f12, e13, f13]
                          | ok vp13 =>
                            obtain ⟨src, p13⟩ := vp13
                            have f13 : read_opt_src d1 size p12 = .ok (src, p13) := by rw [a13, e13]
                            simp only [decode_parameter, e1, f1, e2, f2, e3, f3, e4, f4, e5, f5, e6, f6, e7, f7, e8, f8, e9, f9, e10, f10, e11, f11, e12, f12, e13, f13]

theorem agrees_decode_parameters (n : Nat) :
    ∀ d1 d2 size pos, (∀ i, i < size → d1 i = d2 i) →
      decode_parameters d1 size n pos = decode_parameters d2 size n pos := by
  induction n with
  | zero => intro d1 d2 size pos h; rfl
  | succ n ih =>
    intro d1 d2 size pos h
    have a1 := agrees_decode_parameter d1 d2 size pos h
    cases e1 : decode_parameter d2 size pos with
    | error e =>
      have f1 : decode_parameter d1 size pos = .error e := by rw [a1, e1]
      simp only [decode_parameters, e1, f1]
    | ok vp1 =>
      obtain ⟨q, p1⟩ := vp1
      have f1 : decode_parameter d1 size pos = .ok (q, p1) := by rw [a1, e1]
      have a2 := ih d1 d2 size p1 h
      cases e2 : decode_parameters d2 size n p1 with
      | error e =>
        have f2 : decode_parameters d1 size n p1 = .error e := by rw [a2, e2]
        simp only [decode_parameters, e1, f1, e2, f2]
      | ok vp2 =>
        obtain ⟨qs, p2⟩ := vp2
        have f2 : decode_parameters d1 size n p1 = .ok (qs, p2) := by rw [a2, e2]
        simp only [decode_parameters, e1, f1, e2, f2]

theorem agrees_decode_plugin : Agrees decode_plugin := by
  intro d1 d2 size pos h
  have a1 := agrees_read_string d1 d2 size pos h
  cases e1 : read_string d2 size pos with
  | error e =>
    have f1 : read_string d1 size pos = .error e := by rw [a1, e1]
    simp only [decode_plugin, e1, f1]
  | ok vp1 =>
    obtain ⟨nm, p1⟩ := vp1
    have f1 : read_string d1 size pos = .ok (nm, p1) := by rw [a1, e1]
    have a2 := agrees_read_string d1 d2 size p1 h
    cases e2 : read_string d2 size p1 with
    | error e =>
      have f2 : read_string d1 size p1 = .error e := by rw [a2, e2]
      simp only [decode_plugin, e1, f1, e2, f2]
    | ok vp2 =>
      obtain ⟨mid, p2⟩ := vp2
      have f2 : read_string d1 size p1 = .ok (mid, p2) := by rw [a2, e2]
      have a3 := agrees_read_string d1 d2 size p2 h
      cases e3 : read_string d2 size p2 with
      | error e =>
        have f3 : read_string d1 size p2 = .error e := by rw [a3, e3]
        simp only [decode_plugin, e1, f1, e2, f2, e3, f3]
      | ok vp3 =>
        obtain ⟨ty, p3⟩ := vp3
        have f3 : read_string d1 size p2 = .ok (ty, p3) := by rw [a3, e3]
        have a4 := agrees_read_string d1 d2 size p3 h
        cases e4 : read_string d2 size p3 with
        | error e =>
          have f4 : read_string d1 size p3 = .error e := by rw [a4, e4]
          simp only [decode_plugin, e1, f1, e2, f2, e3, f3, e4, f4]
        | ok vp4 =>
          obtain ⟨st, p4⟩ := vp4
          have f4 : read_string d1 size p3 = .ok (st, p4) := by rw [a4, e4]
          have a5 := agrees_read_array_length d1 d2 size p4 h
          cases e5 : read_array_length d2 size p4 with
          | error e =>
            have f5 : read_array_length d1 size p4 = .error e := by rw [a5, e5]
            simp only [decode_plugin, e1, f1, e2, f2, e3, f3, e4, f4, e5, f5]
          | ok vp5 =>
            obtain ⟨cnt, p5⟩ := vp5
            have f5 : read_array_length d1 size p4 = .ok (cnt, p5) := by rw [a5, e5]
            have a6 := agrees_decode_parameters cnt d1 d2 size p5 h
            cases e6 : decode_parameters d2 size cnt p5 with
            | error e =>
              have f6 : decode_parameters d1 size cnt p5 = .error e := by rw [a6, e6]
              simp only [decode_plugin, e1, f1, e2, f2, e3, f3, e4, f4, e5, f5, e6, f6]
            | ok vp6 =>
              obtain ⟨params, p6⟩ := vp6
              have f6 : decode_parameters d1 size cnt p5 = .ok (params, p6) := by rw [a6, e6]
              simp only [decode_plugin, e1, f1, e2, f2, e3, f3, e4, f4, e5, f5, e6, f6]

theorem agrees_decode_plugins (n : Nat) :
    ∀ d1 d2 size pos, (∀ i, i < size → d1 i = d2 i) →
      decode_plugins d1 size n pos = decode_plugins d2 size n pos := by
  induction n with
  | zero => intro d1 d2 size pos h; rfl
  | succ n ih =>
    intro d1 d2 size pos h
    have a1 := agrees_decode_plugin d1 d2 size pos h
    cases e1 : decode_plugin d2 size pos with
    | error e =>
      have f1 : decode_plugin d1 size pos = .error e := by rw [a1, e1]
      simp only [decode_plugins, e1, f1]
    | ok vp1 =>
      obtain ⟨q, p1⟩ := vp1
      have f1 : decode_plugin d1 size pos = .ok (q, p1) := by rw [a1, e1]
      have a2 := ih d1 d2 size p1 h
      cases e2 : decode_plugins d2 size n p1 with
      | error e =>
        have f2 : decode_plugins d1 size n p1 = .error e := by rw [a2, e2]
        simp only [decode_plugins, e1, f1, e2, f2]
      | ok vp2 =>
        obtain ⟨qs, p2⟩ := vp2
        have f2 : decode_plugins d1 size n p1 = .ok (qs, p2) := by rw [a2, e2]
        simp only [decode_plugins, e1, f1, e2, f2]

theorem agrees_decode_plugin_message :
    ∀ d1 d2 size, (∀ i, i < size → d1 i = d2 i) →
      decode_plugin_message d1 size = decode_plugin_message d2 size := by
  intro d1 d2 size h
  have a1 := agrees_read_array_length d1 d2 size 0 h
  cases e1 : read_array_length d2 size 0 with
  | error e =>
    have f1 : read_array_length d1 size 0 = .error e := by rw [a1, e1]
    simp only [decode_plugin_message, e1, f1]
  | ok vp1 =>
    obtain ⟨len, p1⟩ := vp1
    have f1 : read_array_length d1 size 0 = .ok (len, p1) := by rw [a1, e1]
    have a2 := agrees_decode_plugins len d1 d2 size p1 h
    cases e2 : decode_plugins d2 size len p1 with
    | error e =>
      have f2 : decode_plugins d1 size len p1 = .error e := by rw [a2, e2]
      simp only [decode_plugin_message, e1, f1, e2, f2]
    | ok vp2 =>
      obtain ⟨result, p2⟩ := vp2
      have f2 : decode_plugins d1 size len p1 = .ok (result, p2) := by rw [a2, e2]
      simp only [decode_plugin_message, e1, f1, e2, f2]

/-! ### Composite reader lemmas: round-trip -/

/-- Peel the first chunk off an `RW` obligation: run its reader, and
return the byte hypothesis and size bound for the remaining chunk. -/
theorem RW_step {α : Type} {w1 w2 : List Nat} {data : Nat → Nat} {size pos : Nat}
    {x : α} {r : (Nat → Nat) → Nat → Nat → Except String (α × Nat)}
    (h : RW w1 x r)
    (hw : ∀ i, i < (w1 ++ w2).length → data (pos + i) % 256 = (w1 ++ w2).getD i 0 % 256)
    (hsz : pos + (w1 ++ w2).length ≤ size) :
    r data size pos = .ok (x, pos + w1.length) ∧
    (∀ i, i < w2.length → data (pos + w1.length + i) % 256 = w2.getD i 0 % 256) ∧
    pos + w1.length + w2.length ≤ size := by
  refine ⟨h data size pos (rw_hyp_take hw) ?_, rw_hyp_drop hw, ?_⟩
  · simp only [List.length_append] at hsz
    omega
  · simp only [List.length_append] at hsz
    omega

theorem rw_decode_strings (l : List (List Nat)) (hl : ∀ s ∈ l, wfString s) :
    RW (write_strings l) l (fun d s p => decode_strings d s l.length p) := by
  induction l with
  | nil =>
    intro data size pos hw hsz
    show decode_strings data size 0 pos = .ok ([], pos + (write_strings []).length)
    rfl
  | cons s ss ih =>
    intro data size pos hw hsz
    obtain ⟨h1, hw2, hsz2⟩ :=
      RW_step (rw_read_string s (hl s (by simp)).1 (hl s (by simp)).2) hw hsz
    have h2 := ih (fun t ht => hl t (by simp [ht])) data size
      (pos + (write_string s).length) hw2 hsz2
    show decode_strings data size (ss.length + 1) pos =
      .ok (s :: ss, pos + (write_strings (s :: ss)).length)
    simp only [decode_strings, h1, h2, Except.ok.injEq, Prod.mk.injEq]
    refine ⟨by trivial, ?_⟩
    simp only [write_strings, List.length_append]
    omega

theorem rw_read_opt_iv (o : Option (List (List Nat))) (hwf : wfIV o) :
    RW (write_opt_iv o) o read_opt_iv := by
  cases o with
  | none =>
    intro data size pos hw hsz
    have h0 := hw 0 (by decide)
    rw [Nat.add_zero] at h0
    have g0 : (write_opt_iv none).getD 0 0 = 0 := rfl
    rw [g0] at h0
    have hsz1 : pos + 1 ≤ size := hsz
    have hb : read_bool data size pos = .ok (false, pos + 1) := by
      unfold read_bool
      rw [if_pos hsz1]
      have hz : data pos % 256 = 0 := by omega
      rw [hz]
      rfl
    simp only [read_opt_iv, hb, Bool.false_eq_true, if_false]
    rfl
  | some l =>
    obtain ⟨hlen, hstr⟩ := hwf
    intro data size pos hw hsz
    rw [show write_opt_iv (some l) =
      write_bool true ++ (count_bytes l.length ++ write_strings l) from rfl] at hw hsz
    obtain ⟨h1, hw2, hsz2⟩ := RW_step (rw_read_bool true) hw hsz
    obtain ⟨h2, hw3, hsz3⟩ := RW_step (rw_read_array_length l.length) hw2 hsz2
    have hmod : l.length % 65536 = l.length := Nat.mod_eq_of_lt (by omega)
    rw [hmod] at h2
    have h3 := rw_decode_strings l hstr data size
      (pos + (write_bool true).length + (count_bytes l.length).length) hw3 hsz3
    simp only [read_opt_iv, h1, if_true, h2, h3, Except.ok.injEq, Prod.mk.injEq]
    refine ⟨by trivial, ?_⟩
    simp only [write_opt_iv, write_bool_length, count_bytes_length,
      List.length_cons, List.length_append]
    omega

theorem rw_read_opt_src (o : Option (List Nat)) (hwf : wfSrc o) :
    RW (write_opt_src o) o read_opt_src := by
  cases o with
  | none =>
    intro data size pos hw hsz
    have h0 := hw 0 (by decide)
    rw [Nat.add_zero] at h0
    have g0 : (write_opt_src none).getD 0 0 = 0 := rfl
    rw [g0] at h0
    have hsz1 : pos + 1 ≤ size := hsz
    have hb : read_bool data size pos = .ok (false, pos + 1) := by
      unfold read_bool
      rw [if_pos hsz1]
      have hz : data pos % 256 = 0 := by omega
      rw [hz]
      rfl
    simp only [read_opt_src, hb, Bool.false_eq_true, if_false]
    rfl
  | some t =>
    obtain ⟨hlen, hbytes⟩ := hwf
    intro data size pos hw hsz
    rw [show write_opt_src (some t) =
      write_bool true ++ write_string t from rfl] at hw hsz
    obtain ⟨h1, hw2, hsz2⟩ := RW_step (rw_read_bool true) hw hsz
    have h2 := rw_read_string t hlen hbytes data size
      (pos + (write_bool true).length) hw2 hsz2
    simp only [read_opt_src, h1, if_true, h2, Except.ok.injEq, Prod.mk.injEq]
    refine ⟨by trivial, ?_⟩
    simp only [write_opt_src, write_bool_length, write_string_length,
      List.length_cons, List.length_append]
    omega

theorem rw_decode_parameter (p : Parameter) (hwf : wfParameter p) :
    RW (encode_parameter p) p decode_parameter := by
  obtain ⟨hdn, hdv, hcv, halo, hahi, hmx, hmn, hu, hident, hrlo, hrhi, hiv, hsrc⟩ := hwf
  intro data size pos hw hsz
  rw [show encode_parameter p = write_string p.DisplayName ++ (write_float32 p.DefaultValue ++ (write_float32 p.CurrentValue ++ (write_int32 p.Address ++ (write_float32 p.MaxValue ++ (write_float32 p.MinValue ++ (write_string p.Unit ++ (write_string p.Identifier ++ (write_bool p.CanRamp ++ (write_bool p.IsWritable ++ (write_int64 p.RawFlags ++ (write_opt_iv p.IndexedValues ++ (write_opt_src p.IndexedValuesSource)))))))))))) from rfl] at hw hsz
  obtain ⟨h1, hw, hsz⟩ := RW_step (rw_read_string p.DisplayName hdn.1 hdn.2) hw hsz
  obtain ⟨h2, hw, hsz⟩ := RW_step (rw_read_float32 p.DefaultValue hdv) hw hsz
  obtain ⟨h3, hw, hsz⟩ := RW_step (rw_read_float32 p.CurrentValue hcv) hw hsz
  obtain ⟨h4, hw, hsz⟩ := RW_step (rw_read_int32 p.Address halo hahi) hw hsz
  obtain ⟨h5, hw, hsz⟩ := RW_step (rw_read_float32 p.MaxValue hmx) hw hsz
  obtain ⟨h6, hw, hsz⟩ := RW_step (rw_read_float32 p.MinValue hmn) hw hsz
  obtain ⟨h7, hw, hsz⟩ := RW_step (rw_read_string p.Unit hu.1 hu.2) hw hsz
  obtain ⟨h8, hw, hsz⟩ := RW_step (rw_read_string p.Identifier hident.1 hident.2) hw hsz
  obtain ⟨h9, hw, hsz⟩ := RW_step (rw_read_bool p.CanRamp) hw hsz
  obtain ⟨h10, hw, hsz⟩ := RW_step (rw_read_bool p.IsWritable) hw hsz
  obtain ⟨h11, hw, hsz⟩ := RW_step (rw_read_int64 p.RawFlags hrlo hrhi) hw hsz
  obtain ⟨h12, hw, hsz⟩ := RW_step (rw_read_opt_iv p.IndexedValues hiv) hw hsz
  have h13 := (rw_read_opt_src p.IndexedValuesSource hsrc) data size
    (pos + (write_string p.DisplayName).length + (write_float32 p.DefaultValue).length + (write_float32 p.CurrentValue).length + (write_int32 p.Address).length + (write_float32 p.MaxValue).length + (write_float32 p.MinValue).length + (write_string p.Unit).length + (write_string p.Identifier).length + (write_bool p.CanRamp).length + (write_bool p.IsWritable).length + (write_int64 p.RawFlags).length + (write_opt_iv p.IndexedValues).length) hw hsz
  simp only [decode_parameter, h1, h2, h3, h4, h5, h6, h7, h8, h9, h10, h11, h12, h13, Except.ok.injEq, Prod.mk.injEq]
  refine ⟨by trivial, ?_⟩
  simp only [encode_parameter, List.length_append]
  omega

theorem rw_decode_parameters (l : List Parameter) (hl : ∀ q ∈ l, wfParameter q) :
    RW (encode_parameters l) l (fun d s p => decode_parameters d s l.length p) := by
  induction l with
  | nil =>
    intro data size pos hw hsz
    show decode_parameters data size 0 pos = .ok ([], pos + (encode_parameters []).length)
    rfl
  | cons q qs ih =>
    intro data size pos hw hsz
    obtain ⟨h1, hw2, hsz2⟩ := RW_step (rw_decode_parameter q (hl q (by simp))) hw hsz
    have h2 := ih (fun t ht => hl t (by simp [ht])) data size
      (pos + (encode_parameter q).length) hw2 hsz2
    show decode_parameters data size (qs.length + 1) pos =
      .ok (q :: qs, pos + (encode_parameters (q :: qs)).length)
    simp only [decode_parameters, h1, h2, Except.ok.injEq, Prod.mk.injEq]
    refine ⟨by trivial, ?_⟩
    simp only [encode_parameters, List.length_append]
    omega

theorem rw_decode_plugin (pl : Plugin) (hwf : wfPlugin pl) :
    RW (encode_plugin pl) pl decode_plugin := by
  obtain ⟨hn, hm, ht, hst, hcnt, hp⟩ := hwf
  intro data size pos hw hsz
  rw [show encode_plugin pl = write_string pl.Name ++ (write_string pl.ManufacturerID ++ (write_string pl.Type' ++ (write_string pl.Subtype ++ (count_bytes pl.Parameters.length ++ (encode_parameters pl.Parameters))))) from rfl] at hw hsz
  obtain ⟨h1, hw, hsz⟩ := RW_step (rw_read_string pl.Name hn.1 hn.2) hw hsz
  obtain ⟨h2, hw, hsz⟩ := RW_step (rw_read_string pl.ManufacturerID hm.1 hm.2) hw hsz
  obtain ⟨h3, hw, hsz⟩ := RW_step (rw_read_string pl.Type' ht.1 ht.2) hw hsz
  obtain ⟨h4, hw, hsz⟩ := RW_step (rw_read_string pl.Subtype hst.1 hst.2) hw hsz
  obtain ⟨h5, hw, hsz⟩ := RW_step (rw_read_array_length pl.Parameters.length) hw hsz
  have h6 := (rw_decode_parameters pl.Parameters hp) data size
    (pos + (write_string pl.Name).length + (write_string pl.ManufacturerID).length + (write_string pl.Type').length + (write_string pl.Subtype).length + (count_bytes pl.Parameters.length).length) hw hsz
  have hmod : pl.Parameters.length % 65536 = pl.Parameters.length :=
    Nat.mod_eq_of_lt (by omega)
  rw [hmod] at h5
  simp only [decode_plugin, h1, h2, h3, h4, h5, h6, Except.ok.injEq, Prod.mk.injEq]
  refine ⟨by trivial, ?_⟩
  simp only [encode_plugin, List.length_append]
  omega

theorem rw_decode_plugins (l : List Plugin) (hl : ∀ q ∈ l, wfPlugin q) :
    RW (encode_plugins l) l (fun d s p => decode_plugins d s l.length p) := by
  induction l with
  | nil =>
    intro data size pos hw hsz
    show decode_plugins data size 0 pos = .ok ([], pos + (encode_plugins []).length)
    rfl
  | cons q qs ih =>
    intro data size pos hw hsz
    obtain ⟨h1, hw2, hsz2⟩ := RW_step (rw_decode_plugin q (hl q (by simp))) hw hsz
    have h2 := ih (fun t ht => hl t (by simp [ht])) data size
      (pos + (encode_plugin q).length) hw2 hsz2
    show decode_plugins data size (qs.length + 1) pos =
      .ok (q :: qs, pos + (encode_plugins (q :: qs)).length)
    simp only [decode_plugins, h1, h2, Except.ok.injEq, Prod.mk.injEq]
    refine ⟨by trivial, ?_⟩
    simp only [encode_plugins, List.length_append]
    omega

/-- Full decode run on an encoded well-formed message: the count read
returns the plugin count at cursor 2, and the plugin loop returns the
message, consuming the whole buffer. -/
theorem rw_message_run (msg : List Plugin) (hwf : wfMessage msg) :
    read_array_length (memOf (encode_plugin_message msg))
        (encode_plugin_message msg).length 0 = .ok (msg.length, 2) ∧
    decode_plugins (memOf (encode_plugin_message msg))
        (encode_plugin_message msg).length msg.length 2 =
      .ok (msg, (encode_plugin_message msg).length) := by
  obtain ⟨hlen, hpl⟩ := hwf
  have hw : ∀ i, i < (count_bytes msg.length ++ encode_plugins msg).length →
      memOf (encode_plugin_message msg) (0 + i) % 256 =
        (count_bytes msg.length ++ encode_plugins msg).getD i 0 % 256 := by
    intro i hi
    rw [Nat.zero_add]
    rfl
  have hsz : 0 + (count_bytes msg.length ++ encode_plugins msg).length ≤
      (encode_plugin_message msg).length := by
    rw [Nat.zero_add]
    rfl
  obtain ⟨h1, hw2, hsz2⟩ := RW_step (rw_read_array_length msg.length) hw hsz
  have hmod : msg.length % 65536 = msg.length := Nat.mod_eq_of_lt (by omega)
  rw [hmod] at h1
  have h2 := rw_decode_plugins msg hpl (memOf (encode_plugin_message msg))
    (encode_plugin_message msg).length (0 + (count_bytes msg.length).length) hw2 hsz2
  rw [count_bytes_length, Nat.zero_add] at h1 h2
  refine ⟨h1, ?_⟩
  have h2' : decode_plugins (memOf (encode_plugin_message msg))
      (encode_plugin_message msg).length msg.length 2 =
    .ok (msg, 2 + (encode_plugins msg).length) := h2
  rw [h2', Except.ok.injEq, Prod.mk.injEq]
  refine ⟨rfl, ?_⟩
  show 2 + (encode_plugins msg).length = (encode_plugin_message msg).length
  rw [show encode_plugin_message msg = count_bytes msg.length ++ encode_plugins msg
    from rfl, List.length_append, count_bytes_length]

/-! ### Claim theorems -/

/-- Error-or-success characterization of the top-level decode: the only
failure it can produce is the single decode error. -/
theorem sound_decode_plugin_message (data : Nat → Nat) (size : Nat) :
    decode_plugin_message data size = .error insufficient ∨
    ∃ msg, decode_plugin_message data size = .ok msg := by
  rcases sound_read_array_length data size 0 (Nat.zero_le _) with
    h1 | ⟨len, p1, h1, hle1, hsz1, hm1⟩
  · exact Or.inl (by simp only [decode_plugin_message, h1])
  · rcases sound_decode_plugins len data size p1 hsz1 with
      h2 | ⟨msg, p2, h2, hle2, hsz2, hm2⟩
    · exact Or.inl (by simp only [decode_plugin_message, h1, h2])
    · exact Or.inr ⟨msg, by simp only [decode_plugin_message, h1, h2]⟩

/-- C1: for every Message (ordered list of Plugins) whose text fields
and sequences are within the 16-bit limits (and whose fields are within
their C++ types' ranges), decoding the bytes produced by
`encode_plugin_message` with `decode_plugin_message` yields back a
structurally equal Message: every field, every optional's presence and
every sequence's order are preserved. -/
theorem roundtrip_message (msg : List Plugin) (h : wfMessage msg) :
    decode_plugin_message (memOf (encode_plugin_message msg))
      (encode_plugin_message msg).length = .ok msg := by
  obtain ⟨h1, h2⟩ := rw_message_run msg h
  simp only [decode_plugin_message, h1, h2]

/-- Concrete one-plugin message exercising every field, including both
optionals present; used by the C1 witness. -/
def witnessMsg : List Plugin :=
  [{ Name := [65]
     ManufacturerID := []
     Type' := [66, 67]
     Subtype := []
     Parameters :=
       [{ DisplayName := [68]
          DefaultValue := 1065353216
          CurrentValue := 0
          Address := -5
          MaxValue := 4294967295
          MinValue := 0
          Unit := []
          Identifier := [69]
          CanRamp := true
          IsWritable := false
          RawFlags := -1
          IndexedValues := some [[97], [98], [99]]
          IndexedValuesSource := some [120] }] }]

/-- Witness for C1 at a concrete message. -/
theorem roundtrip_message_witness :
    decode_plugin_message (memOf (encode_plugin_message witnessMsg))
      (encode_plugin_message witnessMsg).length = .ok witnessMsg :=
  roundtrip_message witnessMsg (by decide)

/-- C2: decoding any strict prefix of a valid encoded buffer fails with
the malformed-input decode error, and a decode run never reads a byte at
an offset at or beyond the supplied length (two memories that agree
below the supplied length decode identically). -/
theorem truncation_safety (msg : List Plugin) (h : wfMessage msg) :
    (∀ k, k < (encode_plugin_message msg).length →
      decode_plugin_message (memOf (encode_plugin_message msg)) k =
        .error insufficient) ∧
    (∀ d1 d2 size, (∀ i, i < size → d1 i = d2 i) →
      decode_plugin_message d1 size = decode_plugin_message d2 size) := by
  refine ⟨?_, agrees_decode_plugin_message⟩
  intro k hk
  obtain ⟨hr1, hr2⟩ := rw_message_run msg h
  rcases sound_read_array_length (memOf (encode_plugin_message msg)) k 0
      (Nat.zero_le _) with h1 | ⟨len, p1, h1, hle1, hsz1, hm1⟩
  · simp only [decode_plugin_message, h1]
  · have hN := hm1 (encode_plugin_message msg).length (by omega)
    rw [hr1] at hN
    have hpair := Except.ok.inj hN
    have hlen2 : msg.length = len := congrArg Prod.fst hpair
    have hp12 : (2 : Nat) = p1 := congrArg Prod.snd hpair
    rcases sound_decode_plugins len (memOf (encode_plugin_message msg)) k p1 hsz1
      with h2 | ⟨res, p2, h2, hle2, hsz2, hm2⟩
    · simp only [decode_plugin_message, h1, h2]
    · exfalso
      have h2N : decode_plugins (memOf (encode_plugin_message msg))
          (encode_plugin_message msg).length msg.length 2 = .ok (res, p2) := by
        rw [hlen2, hp12]
        exact hm2 _ (by omega)
      rw [hr2] at h2N
      have hfin := congrArg Prod.snd (Except.ok.inj h2N)
      simp only [] at hfin
      omega

/-- Witness for C2: the empty message encodes to 2 bytes; the 1-byte
prefix fails with the decode error, and two buffers agreeing on an empty
range decode identically at length 0. -/
theorem truncation_safety_witness :
    decode_plugin_message (memOf (encode_plugin_message [])) 1 =
      .error insufficient ∧
    decode_plugin_message (memOf [7]) 0 = decode_plugin_message (memOf [9]) 0 :=
  ⟨(truncation_safety [] (by decide)).1 1 (by decide),
   (truncation_safety [] (by decide)).2 (memOf [7]) (memOf [9]) 0
     (fun i hi => absurd hi (Nat.not_lt_zero i))⟩

/-- C3: the two-byte buffer `[0x00, 0x00]` (a Message with Plugin count
0) decodes successfully at the codec level to the empty Plugin list, but
both boundary decode operations reject it with their empty-message
errors and return no handle. -/
theorem empty_message_rule :
    decode_plugin_message (memOf [0, 0]) 2 = .ok [] ∧
    message_decode (memOf [0, 0]) 2 = .error "No items in message" ∧
    plugin_decode (memOf [0, 0]) 2 = .error "No plugins in message" := by
  refine ⟨by decide, by decide, by decide⟩

/-- C5: on a valid (non-null) handle, `plugin_get_parameter` returns the
absent sentinel for every index at or beyond the Parameter count, and
`parameter_get_indexed_value` returns the absent sentinel whenever
`IndexedValues` is absent or its count is at most the index (the count
accessor reports 0 for an absent optional); no accessor returns an
error on an out-of-range index — the return type has no error case. -/
theorem out_of_range_sentinel :
    (∀ (impl : PluginHandleImpl) (index : Nat),
      (firstPlugin impl).Parameters.length ≤ index →
      plugin_get_parameter (some impl) index = none) ∧
    (∀ (ph : ParameterHandleImpl) (index : Nat),
      parameter_get_indexed_values_count (some ph) ≤ index →
      parameter_get_indexed_value (some ph) index = none) := by
  constructor
  · intro impl index hge
    simp only [plugin_get_parameter, if_pos hge]
  · intro ph index hge
    simp only [parameter_get_indexed_value]
    cases hiv : ph.param.IndexedValues with
    | none => rfl
    | some l =>
      simp only [parameter_get_indexed_values_count, hiv] at hge
      simp only [if_pos hge]

/-- Concrete handles for the C5 witness: a plugin with no parameters and
a parameter with three indexed values. -/
def witnessPluginHandle : PluginHandleImpl :=
  { plugins := [{ Name := [], ManufacturerID := [], Type' := [], Subtype := [], Parameters := [] }] }

/-- Concrete parameter handle for the C5 witness. -/
def witnessParamHandle : ParameterHandleImpl :=
  { param :=
    { DisplayName := []
      DefaultValue := 0
      CurrentValue := 0
      Address := 0
      MaxValue := 0
      MinValue := 0
      Unit := []
      Identifier := []
      CanRamp := false
      IsWritable := false
      RawFlags := 0
      IndexedValues := some [[97], [98], [99]]
      IndexedValuesSource := none } }

/-- Witness for C5 at concrete handles and indices. -/
theorem out_of_range_sentinel_witness :
    plugin_get_parameter (some witnessPluginHandle) 0 = none ∧
    parameter_get_indexed_value (some witnessParamHandle) 3 = none :=
  ⟨(out_of_range_sentinel).1 witnessPluginHandle 0 (by decide),
   (out_of_range_sentinel).2 witnessParamHandle 3 (by decide)⟩

/-- C6: a well-formed Parameter round-trips through
`encode_parameter` / `decode_parameter` to a structurally equal value;
in particular each of the four present/absent combinations of
`IndexedValues` and `IndexedValuesSource` is preserved exactly — an
absent optional stays absent, a present sequence keeps its exact order,
and the two optionals' presences are independent. -/
theorem optional_presence_roundtrip (p : Parameter) (h : wfParameter p) :
    decode_parameter (memOf (encode_parameter p)) (encode_parameter p).length 0 =
      .ok (p, (encode_parameter p).length) := by
  have hw : ∀ i, i < (encode_parameter p).length →
      memOf (encode_parameter p) (0 + i) % 256 =
        (encode_parameter p).getD i 0 % 256 := by
    intro i hi
    rw [Nat.zero_add]
    rfl
  have hsz : 0 + (encode_parameter p).length ≤ (encode_parameter p).length := by
    omega
  have := rw_decode_parameter p h (memOf (encode_parameter p))
    (encode_parameter p).length 0 hw hsz
  rwa [Nat.zero_add] at this

/-- Parameter with `IndexedValues = ["a","b","c"]` (bytes 97, 98, 99)
and `IndexedValuesSource` absent, for the C6 witness. -/
def witnessParamABC : Parameter :=
  { DisplayName := [68]
    DefaultValue := 0
    CurrentValue := 0
    Address := 7
    MaxValue := 0
    MinValue := 0
    Unit := []
    Identifier := []
    CanRamp := false
    IsWritable := true
    RawFlags := 3
    IndexedValues := some [[97], [98], [99]]
    IndexedValuesSource := none }

/-- Parameter with `IndexedValues` absent and `IndexedValuesSource`
present, for the C6 witness. -/
def witnessParamSrc : Parameter :=
  { DisplayName := []
    DefaultValue := 0
    CurrentValue := 0
    Address := 0
    MaxValue := 0
    MinValue := 0
    Unit := []
    Identifier := []
    CanRamp := false
    IsWritable := false
    RawFlags := 0
    IndexedValues := none
    IndexedValuesSource := some [115] }

/-- Witness for C6 at two of the presence combinations. -/
theorem optional_presence_roundtrip_witness :
    decode_parameter (memOf (encode_parameter witnessParamABC))
      (encode_parameter witnessParamABC).length 0 =
      .ok (witnessParamABC, (encode_parameter witnessParamABC).length) ∧
    decode_parameter (memOf (encode_parameter witnessParamSrc))
      (encode_parameter witnessParamSrc).length 0 =
      .ok (witnessParamSrc, (encode_parameter witnessParamSrc).length) :=
  ⟨optional_presence_roundtrip witnessParamABC (by decide),
   optional_presence_roundtrip witnessParamSrc (by decide)⟩

/-- C7: boundary values round-trip exactly: any well-formed text (the
lengths 0 and 65535 both satisfy the bound) reads back identical bytes;
the empty sequence decodes back to an empty sequence; and any negative
signed 64-bit `RawFlags` value, written as 8 little-endian
two's-complement bytes, reads back identically. -/
theorem boundary_values_roundtrip :
    (∀ s : List Nat, wfString s →
      read_string (memOf (write_string s)) (write_string s).length 0 =
        .ok (s, (write_string s).length)) ∧
    decode_plugin_message (memOf (encode_plugin_message [])) 2 = .ok [] ∧
    (∀ v : Int, -(2 ^ 63) ≤ v → v < 0 →
      read_int64 (memOf (write_int64 v)) 8 0 = .ok (v, 8)) := by
  refine ⟨?_, by decide, ?_⟩
  · intro s hs
    have hw : ∀ i, i < (write_string s).length →
        memOf (write_string s) (0 + i) % 256 = (write_string s).getD i 0 % 256 := by
      intro i hi
      rw [Nat.zero_add]
      rfl
    have := rw_read_string s hs.1 hs.2 (memOf (write_string s))
      (write_string s).length 0 hw (by omega)
    rwa [Nat.zero_add] at this
  · intro v hlo hhi
    have hw : ∀ i, i < (write_int64 v).length →
        memOf (write_int64 v) (0 + i) % 256 = (write_int64 v).getD i 0 % 256 := by
      intro i hi
      rw [Nat.zero_add]
      rfl
    have := rw_read_int64 v hlo (by omega) (memOf (write_int64 v)) 8 0 hw
      (by rw [write_int64_length])
    rwa [Nat.zero_add, write_int64_length] at this

/-- Witness for C7: a 65535-byte text and the most negative 64-bit
value. -/
theorem boundary_values_roundtrip_witness :
    read_string (memOf (write_string (List.replicate 65535 7)))
      (write_string (List.replicate 65535 7)).length 0 =
      .ok (List.replicate 65535 7, (write_string (List.replicate 65535 7)).length) ∧
    read_int64 (memOf (write_int64 (-9223372036854775808))) 8 0 =
      .ok (-9223372036854775808, 8) :=
  ⟨(boundary_values_roundtrip).1 (List.replicate 65535 7)
     ⟨le_of_eq (List.length_replicate 65535 7),
      fun b hb => by rw [List.eq_of_mem_replicate hb]; omega⟩,
   (boundary_values_roundtrip).2.2 (-9223372036854775808) (by norm_num) (by norm_num)⟩

/-- The sample Plugin of the C8 scenario. -/
def samplePlugin : Plugin :=
  { Name := [70, 111, 111]
    ManufacturerID := [77, 70, 82, 49]
    Type' := [97, 117, 102, 120]
    Subtype := [97, 98, 99, 100]
    Parameters := [] }

/-- C8: the message holding the single Plugin {Name:"Foo",
ManufacturerID:"MFR1", Type:"aufx", Subtype:"abcd", Parameters:[]}
encodes to 2 + (2+3) + (2+4) + (2+4) + (2+4) + 2 = 27 bytes and decodes
back to a structurally identical message. -/
theorem sample_scenario :
    (encode_plugin_message [samplePlugin]).length =
      2 + (2 + 3) + (2 + 4) + (2 + 4) + (2 + 4) + 2 ∧
    decode_plugin_message (memOf (encode_plugin_message [samplePlugin]))
      (encode_plugin_message [samplePlugin]).length = .ok [samplePlugin] := by
  refine ⟨by decide, by decide⟩

/-- The message that the C9 buffer (with flag bytes 0x02 and 0x05)
decodes to: `CanRamp` is true and `IndexedValues` is present (empty). -/
def lenientMsg : List Plugin :=
  [{ Name := []
     ManufacturerID := []
     Type' := []
     Subtype := []
     Parameters :=
       [{ DisplayName := []
          DefaultValue := 0
          CurrentValue := 0
          Address := 0
          MaxValue := 0
          MinValue := 0
          Unit := []
          Identifier := []
          CanRamp := true
          IsWritable := false
          RawFlags := 0
          IndexedValues := some []
          IndexedValuesSource := none }] }]

/-- C9: `read_bool` maps any non-zero byte to `true` (with sufficient
data it succeeds and returns exactly the test `byte % 256 ≠ 0`), while
`write_bool` only ever emits 0x00 or 0x01; consequently a buffer whose
boolean or presence bytes hold other values still decodes, reading those
flags as true — shown on a 52-byte message whose `CanRamp` byte is 0x02
and whose `IndexedValues` presence byte is 0x05. -/
theorem bool_leniency :
    (∀ (data : Nat → Nat) (size pos : Nat), pos + 1 ≤ size →
      read_bool data size pos = .ok (data pos % 256 != 0, pos + 1)) ∧
    (∀ b, write_bool b = [0] ∨ write_bool b = [1]) ∧
    decode_plugin_message
      (memOf [1, 0, 0, 0, 0, 0, 0, 0, 0, 0, 1, 0, 0, 0, 0, 0, 0, 0, 0, 0, 0, 0,
              0, 0, 0, 0, 0, 0, 0, 0, 0, 0, 0, 0, 0, 0, 0, 0, 2, 0, 0, 0, 0, 0,
              0, 0, 0, 0, 5, 0, 0, 0]) 52 =
      .ok lenientMsg := by
  refine ⟨?_, ?_, by decide⟩
  · intro data size pos hle
    unfold read_bool
    rw [if_pos hle]
  · intro b
    cases b
    · exact Or.inl rfl
    · exact Or.inr rfl

/-- Witness for C9's guarded conjunct: a byte value 5 reads as true. -/
theorem bool_leniency_witness :
    read_bool (memOf [5]) 1 0 = .ok ((memOf [5]) 0 % 256 != 0, 0 + 1) :=
  (bool_leniency).1 (memOf [5]) 1 0 (by omega)

/-- C10: the boundary encode operations are read-only on the owned
entity graph: encoding returns the codec's bytes for the owned list and
only refreshes the `encoded_data` cache, the owned `items` / `plugins`
list is unchanged, a second encode returns the identical buffer, and
accessors answer the same after an encode as before. -/
theorem encode_frame :
    (∀ impl : MessageHandleImpl,
      message_encode (some impl) =
        .ok (encode_plugin_message impl.items,
             { impl with encoded_data := encode_plugin_message impl.items }) ∧
      ({ impl with encoded_data := encode_plugin_message impl.items } :
          MessageHandleImpl).items = impl.items ∧
      message_encode
          (some { impl with encoded_data := encode_plugin_message impl.items }) =
        .ok (encode_plugin_message impl.items,
             { impl with encoded_data := encode_plugin_message impl.items })) ∧
    (∀ impl : PluginHandleImpl,
      plugin_encode (some impl) =
        .ok (encode_plugin_message impl.plugins,
             { impl with encoded_data := encode_plugin_message impl.plugins }) ∧
      ({ impl with encoded_data := encode_plugin_message impl.plugins } :
          PluginHandleImpl).plugins = impl.plugins ∧
      plugin_encode
          (some { impl with encoded_data := encode_plugin_message impl.plugins }) =
        .ok (encode_plugin_message impl.plugins,
             { impl with encoded_data := encode_plugin_message impl.plugins }) ∧
      (∀ index, plugin_get_parameter
          (some { impl with encoded_data := encode_plugin_message impl.plugins })
          index = plugin_get_parameter (some impl) index) ∧
      plugin_get_name
          (some { impl with encoded_data := encode_plugin_message impl.plugins }) =
        plugin_get_name (some impl)) :=
  ⟨fun _ => ⟨rfl, rfl, rfl⟩,
   fun _ => ⟨rfl, rfl, rfl, fun _ => rfl, rfl⟩⟩

end test
